import Mathlib

/-!
Verification of the core logic of the MBV weather-visualization backend
(`app/` in the repository): batch status aggregation, the tileset publishing
orchestrator, geodata extraction heuristics, tileset naming, file deletion, and
the batch upload pipeline.

Shallow-embedding conventions used throughout this file:

* Python dicts keyed by id strings become association lists `List (String × α)`
  (`lookupKey`, `updKey`, `eraseKey`, `setKey` model `d[k]`, field mutation,
  `del d[k]`, and `d[k] = v`).
* Python floats become rationals `ℚ`; all arithmetic and comparisons the
  claims touch are exact at the relevant values.
* Python strings are Lean strings with ASCII semantics for `str.lower` and
  `str.isalnum` (Lean core's `Char.toLower` / `Char.isAlphanum` implement
  exactly Python's behavior on the ASCII range).
* Fallible code returns `Option` / `Except`; a Python `try/except` block
  becomes the `Except` eliminator, and a raising remote call is modeled as an
  `Except`-valued input.
* `async` functions are modeled as plain state transformers: each claim is
  about one task's effect on the in-memory record store.
-/

namespace MBV

/-- Lookup in an association list modeling a Python dict read (`d[k]` /
`d.get(k)`). -/
def lookupKey {α : Type} (k : String) : List (String × α) → Option α
  | [] => none
  | (k', v) :: t => if k' = k then some v else lookupKey k t

/-- Membership test modeling Python's `k in d`. -/
def hasKey {α : Type} (k : String) (m : List (String × α)) : Bool :=
  (lookupKey k m).isSome

/-- Mutation of the entry at key `k`, modeling statements like
`d[k]['field'] = v`. A missing key is left untouched (the code guards every
such write with `if k in d`). -/
def updKey {α : Type} (k : String) (f : α → α) (m : List (String × α)) :
    List (String × α) :=
  m.map fun p => if p.1 = k then (p.1, f p.2) else p

/-- Deletion modeling Python's `del d[k]`. -/
def eraseKey {α : Type} (k : String) (m : List (String × α)) :
    List (String × α) :=
  m.filter fun p => ¬ p.1 = k

/-- Assignment modeling Python's `d[k] = v` (replaces in place or appends). -/
def setKey {α : Type} (k : String) (v : α) (m : List (String × α)) :
    List (String × α) :=
  if hasKey k m then updKey k (fun _ => v) m else m ++ [(k, v)]

/-- Whether `pat` occurs at the start of `s` (helper for `strIn`). -/
def listStartsWith : List Char → List Char → Bool
  | [], _ => true
  | _ :: _, [] => false
  | p :: ps, c :: cs => p = c && listStartsWith ps cs

/-- Substring test modeling Python's `pat in s` on strings. -/
def strIn (pat : List Char) : List Char → Bool
  | [] => pat.isEmpty
  | c :: t => listStartsWith pat (c :: t) || strIn pat t

/-- Python `s.lower()` (ASCII model; `Char.toLower` lowercases exactly
`A`-`Z`). -/
def lowerStr (s : String) : String :=
  ⟨s.data.map Char.toLower⟩

/-- The character-level primitives the tileset-id sanitizer calls:
Python's `str.lower` taken character-wise and Python's `c.isalnum()`. Both
are Unicode-aware in the program (a non-ASCII letter in a user-supplied
tileset name is lowercased and kept), so the naming pipeline below is
parametric in them; the theorems assume of `py` only facts that hold of the
Python functions (`PyCase.Sound`), and `asciiPy` is the concrete instance
used to evaluate all-ASCII runs, on which Python's functions coincide with
the ASCII ones. -/
structure PyCase where
  lower : Char → Char
  isAlnum : Char → Bool

/-- Python `c.isalnum() or c in '-_'`, the character class kept by the
tileset-id sanitizer. -/
def pyAllowedChar (py : PyCase) (c : Char) : Bool :=
  py.isAlnum c || c = '-' || c = '_'

/-- The ASCII restriction of the primitives: `Char.toLower` lowercases
exactly `A`-`Z` and `Char.isAlphanum` is `[A-Za-z0-9]`, which is how
Python's `lower`/`isalnum` behave on ASCII characters. -/
def asciiPy : PyCase :=
  { lower := Char.toLower, isAlnum := Char.isAlphanum }

/-- What the proofs assume of the program's `lower`/`isalnum`: agreement
with the ASCII functions on ASCII codepoints, and idempotence of
lowering. Python's Unicode functions satisfy both (its case mapping is
ASCII-classical below 128 and lowercase forms are lower-fixed), and
`asciiPy` satisfies them definitionally. -/
def PyCase.Sound (py : PyCase) : Prop :=
  (∀ c : Char, c.toNat < 128 → py.lower c = Char.toLower c) ∧
  (∀ c : Char, c.toNat < 128 → py.isAlnum c = Char.isAlphanum c) ∧
  (∀ c : Char, py.lower (py.lower c) = py.lower c)

/-! ### Wind component detection — `find_wind_components`,
`src/app/core/wind_analyzer.py` lines 11-28 -/

/-- Pattern list `u_patterns` from `find_wind_components`. -/
def u_patterns : List String :=
  ["u", "u10", "u_wind", "u_component", "eastward", "ugrd", "u-component", "uas"]

/-- Pattern list `v_patterns` from `find_wind_components`. -/
def v_patterns : List String :=
  ["v", "v10", "v_wind", "v_component", "northward", "vgrd", "v-component", "vas"]

/-- Python `any(p in var_lower for p in u_patterns)` with
`var_lower = var.lower()`. -/
def matchesU (var : String) : Bool :=
  u_patterns.any fun p => strIn p.data (lowerStr var).data

/-- Python `any(p in var_lower for p in v_patterns)`. -/
def matchesV (var : String) : Bool :=
  v_patterns.any fun p => strIn p.data (lowerStr var).data

/-- The scan loop of `find_wind_components` (lines 19-24): an `if` guarded by
`not u_var` and an `elif` guarded by `not v_var`. A variable name can only be
truthy-false as the empty string, which matches no pattern, so Python's
truthiness test `not u_var` coincides with `Option.isNone` here. -/
def windLoop : List String → Option String → Option String →
    Option String × Option String
  | [], u, v => (u, v)
  | var :: rest, u, v =>
    if u.isNone && matchesU var then windLoop rest (some var) v
    else if v.isNone && matchesV var then windLoop rest u (some var)
    else windLoop rest u v

/-- `find_wind_components` over the dataset's ordered variable-name list
(lines 11-28): returns `{"u": u_var, "v": v_var}` when both were found. -/
def find_wind_components (vars : List String) : Option (String × String) :=
  match windLoop vars none none with
  | (some u, some v) => some (u, v)
  | _ => none

/-- Modelled from the spec's policy wording for `find_vector_components`: the
u axis gets the first variable containing a u-pattern substring; the v axis
gets the first variable, the u choice excluded, containing a v-pattern
substring; the result is `None` when either axis has no match. -/
def findVectorComponentsPolicy (vars : List String) : Option (String × String) :=
  match vars.find? matchesU with
  | none => none
  | some u =>
    match (vars.eraseP matchesU).find? matchesV with
    | none => none
    | some v => some (u, v)

/-! ### Geographic bounds — `get_dataset_bounds`,
`src/app/core/netcdf_processor.py` lines 140-170 -/

/-- The slice of an opened dataset that `get_dataset_bounds` reads: its
coordinate arrays by name. -/
structure Dataset where
  coords : List (String × List ℚ)
deriving DecidableEq

/-- Geographic bounds record `{north, south, east, west}`. -/
structure Bounds where
  north : ℚ
  south : ℚ
  east : ℚ
  west : ℚ
deriving DecidableEq

/-- Alias list `lat_names` (line 144). -/
def lat_names : List String := ["lat", "latitude", "y", "Y"]

/-- Alias list `lon_names` (line 145). -/
def lon_names : List String := ["lon", "longitude", "x", "X"]

/-- The `for name in names: if name in ds.coords: ...; break` loops
(lines 150-158): first coordinate array found under the alias list. -/
def findCoord (names : List String) (coords : List (String × List ℚ)) :
    Option (List ℚ) :=
  match names with
  | [] => none
  | n :: rest =>
    match lookupKey n coords with
    | some a => some a
    | none => findCoord rest coords

/-- `get_dataset_bounds` (lines 140-170). The whole body sits in a bare
`try/except: pass` returning `None`; the only fallible step in this model is
`float(coord.max())` / `float(coord.min())` on an empty coordinate array
(numpy raises there), so the `except` path is the `none` fallback of
`max?` / `min?`. -/
def get_dataset_bounds (ds : Dataset) : Option Bounds :=
  match findCoord lat_names ds.coords, findCoord lon_names ds.coords with
  | some la, some lo =>
    match la.max?, la.min?, lo.max?, lo.min? with
    | some n, some s, some e, some w => some ⟨n, s, e, w⟩
    | _, _, _, _ => none
  | _, _ => none

/-! ### Center/zoom heuristic — `calculate_optimal_view`,
`src/app/core/netcdf_processor.py` lines 173-209 -/

/-- `calculate_optimal_view` (lines 173-209). The caller guards the `None`
case (`if bounds else (None, None)` at line 69), so the input here is an
actual bounds record and the `if not bounds` branch cannot fire. The function
is pure, so determinism given the same bounds is definitional. -/
def calculate_optimal_view (b : Bounds) : List ℚ × ℕ :=
  let center_lon := (b.east + b.west) / 2
  let center_lat := (b.north + b.south) / 2
  let lat_diff := b.north - b.south
  let lon_diff := b.east - b.west
  let max_diff := max lat_diff lon_diff
  let zoom : ℕ :=
    if max_diff > 180 then 1
    else if max_diff > 90 then 2
    else if max_diff > 45 then 3
    else if max_diff > 22 then 4
    else if max_diff > 11 then 5
    else if max_diff > 5.5 then 6
    else if max_diff > 2.8 then 7
    else if max_diff > 1.4 then 8
    else 9
  ([center_lon, center_lat], zoom)

/-- Modelled from the spec: the fixed descending strict-threshold ladder over
`max(lat_span, lon_span)` (>180→1, >90→2, >45→3, >22→4, >11→5, >5.5→6,
>2.8→7, >1.4→8, else 9). -/
def zoomLadderSpec (span : ℚ) : ℕ :=
  if span > 180 then 1
  else if span > 90 then 2
  else if span > 45 then 3
  else if span > 22 then 4
  else if span > 11 then 5
  else if span > 5.5 then 6
  else if span > 2.8 then 7
  else if span > 1.4 then 8
  else 9

/-! ### Tileset naming — `generate_tileset_id`,
`src/app/core/netcdf_processor.py` lines 238-275

The function takes `file_path.stem` (directory and extension are plumbing, so
the stem is the input here) and reads the clock as
`datetime.now().strftime("%m%d%H%M")`; the clock is injected as the
`timestamp` argument, which that `strftime` always renders as 8 digits. -/

/-- Python `s.split('_', 1)[-1]` (line 245): everything after the first
underscore, or the whole string when there is none. -/
def splitUnderTail (l : List Char) : List Char :=
  match l.dropWhile (fun c => ¬ c = '_') with
  | [] => l
  | _ :: t => t

/-- Python `s.split('_')` on characters: `""` gives `[""]`, separators at the
ends give empty parts, as in Python. -/
def splitUnd : List Char → List (List Char)
  | [] => [[]]
  | c :: t =>
    if c = '_' then [] :: splitUnd t
    else
      match splitUnd t with
      | [] => [[c]]
      | h :: r => (c :: h) :: r

/-- Python `'_'.join(parts)`. -/
def joinUnd : List (List Char) → List Char
  | [] => []
  | [p] => p
  | p :: ps => p ++ '_' :: joinUnd ps

/-- Lines 251-253: lowercase, replace every lowered character failing
`c.isalnum() or c in '-_'` with `_`, then collapse runs of `_` by splitting
on `_` and rejoining the non-empty parts. -/
def sanitizeName (py : PyCase) (name : List Char) : List Char :=
  let low := name.map py.lower
  let repl := low.map fun c => if pyAllowedChar py c then c else '_'
  joinUnd ((splitUnd repl).filter fun p => ¬ p.isEmpty)

/-- Lines 245-248: when no user name was given, derive one from the file
stem — drop the leading job-id segment, keep only characters passing
`c.isalnum() or c in '-_'`, cap at 20 characters, and fall back to
`"weather_data"` when nothing is left. -/
def deriveNameFromStem (py : PyCase) (stem : List Char) : List Char :=
  let filename := splitUnderTail stem
  let t := (filename.filter (pyAllowedChar py)).take 20
  if t.isEmpty then "weather_data".data else t

/-- Python `s.rstrip('_')` (line 271). -/
def rstripUnd (l : List Char) : List Char :=
  (l.reverse.dropWhile fun c => c = '_').reverse

/-- The name entering the sanitizer: `tileset_name` unless Python-falsy
(absent or empty), else the stem-derived default (lines 244-248). -/
def chosenName (py : PyCase) (stem : String)
    (tileset_name : Option String) : List Char :=
  match tileset_name with
  | some n => if n.isEmpty then deriveNameFromStem py stem.data else n.data
  | none => deriveNameFromStem py stem.data

/-- Lines 257-261: `"wx"`, or `"wxb_" + batch_id[:8]` when `batch_id` is
truthy (a present, non-empty string). -/
def tilesetPfx (batch_id : Option String) : List Char :=
  match batch_id with
  | some b => if b.isEmpty then "wx".data else "wxb_".data ++ b.data.take 8
  | none => "wx".data

/-- Lines 263-266: truncate the sanitized name so that prefix + name +
timestamp + two underscores fit in 32 characters. The budget is computed in
`ℤ` exactly as Python computes its `int`. -/
def truncatedName (py : PyCase) (stem : String) (tileset_name : Option String)
    (batch_id : Option String) (timestamp : String) : List Char :=
  let name1 := sanitizeName py (chosenName py stem tileset_name)
  let maxLen : ℤ :=
    32 - (tilesetPfx batch_id).length - timestamp.data.length - 2
  if (name1.length : ℤ) > maxLen then name1.take maxLen.toNat else name1

/-- `generate_tileset_id` (lines 238-275): assemble
`f"{prefix}_{name}_{timestamp}"`, lowercase, keep characters passing
`c.isalnum() or c in '-_'`, truncate to 32 characters, strip trailing
underscores. Pure in its inputs, so determinism for a fixed clock value is
definitional. -/
def generate_tileset_id (py : PyCase) (stem : String)
    (tileset_name : Option String) (batch_id : Option String)
    (timestamp : String) : String :=
  let tid := tilesetPfx batch_id ++
    '_' :: truncatedName py stem tileset_name batch_id timestamp ++
    '_' :: timestamp.data
  let tid := (tid.map py.lower).filter (pyAllowedChar py)
  ⟨rstripUnd (tid.take 32)⟩

/-- The composite `lower`-then-keep-allowed pass of lines 269-270, as one
function (used to state what the pass does to each segment of the id). -/
def pySan (py : PyCase) (l : List Char) : List Char :=
  (l.map py.lower).filter (pyAllowedChar py)

/-- Characters drawn from `[a-z0-9_-]`, the class the spec asserts for
generated tileset ids. -/
def lowerAllowedChar (c : Char) : Bool :=
  (decide (97 ≤ c.toNat) && decide (c.toNat ≤ 122)) ||
  (decide (48 ≤ c.toNat) && decide (c.toNat ≤ 57)) || c = '-' || c = '_'

/-! ### The in-memory record store — `AppState`,
`src/app/dependencies.py` lines 34-41, with the record shapes the claims
read. Every `status`-like field is written at each record's creation site, so
the defensive `.get('status', ...)` defaults in readers cannot fire and the
fields are plain strings here; fields read via a bare `.get(k)` are
`Option`-valued. -/

/-- A Visualization Record (`active_visualizations[job_id]`), restricted to
the fields the claims read or the modeled code writes. -/
structure VizRec where
  status : String
  error : Option String := none
  warning : Option String := none
  requested_format : Option String := none
  format : Option String := none
  actual_format : Option String := none
  format_fallback : Bool := false
  use_client_animation : Bool := false
  mapbox_tileset : Option String := none
  source_layer : Option String := none
  recipe_id : Option String := none
  publish_job_id : Option String := none
  tileset_id : Option String := none
  session_id : Option String := none
  batch_id : Option String := none
deriving DecidableEq

/-- An Uploaded File Record (`uploaded_files[job_id]`), restricted to the
fields the claims read or the modeled code writes. -/
structure FileRec where
  processing_status : String
  error : Option String := none
  tileset_id : Option String := none
  file_path : String := ""
deriving DecidableEq

/-- A Session Record (`active_sessions[session_id]`); its payload is opaque
to every claim here. -/
structure SessionRec where
  file_path : String := ""
  batch_id : Option String := none
deriving DecidableEq

/-- One entry of a Batch Record's `files` list. `job_id` is read with
`file_info.get('job_id')`, hence `Option`-valued. -/
structure BatchFile where
  job_id : Option String := none
  filename : String := ""
  success : Bool := false
  status : String := ""
  error : Option String := none
deriving DecidableEq

/-- A Batch Record (`batch_jobs[batch_id]`), which doubles as the shape of
the `results` accumulator of `process_batch_upload` (the upload endpoint
merges that accumulator into the record with `dict.update`). The three
`*_files` counters are the keys `get_batch_status` writes. -/
structure BatchRec where
  batch_id : Option String := none
  total_files : ℕ := 0
  processed_files : ℕ := 0
  status : String := "processing"
  files : List BatchFile := []
  errors : List (String × String) := []
  completed_files : ℕ := 0
  failed_files : ℕ := 0
  processing_files : ℕ := 0
deriving DecidableEq

/-- The shared in-memory store (`AppState`, dependencies.py lines 34-41);
`active_datasets` is untouched by every claim and omitted. -/
structure AppState where
  active_visualizations : List (String × VizRec) := []
  uploaded_files : List (String × FileRec) := []
  batch_jobs : List (String × BatchRec) := []
  active_sessions : List (String × SessionRec) := []
deriving DecidableEq

/-! ### Batch status read — `get_batch_status`,
`src/app/api/batch.py` lines 11-51 -/

/-- The counting loop of `get_batch_status` (lines 22-35): per batch file
entry, look up the entry's job id among current Visualization Records and
bucket its status as completed / failed / else-processing; entries whose job
id has no Visualization Record (or no job id) are skipped. The Python loop
accumulates left to right; this recursion accumulates right to left, which
yields the same three totals. -/
def countStatuses (viz : List (String × VizRec)) :
    List BatchFile → ℕ × ℕ × ℕ
  | [] => (0, 0, 0)
  | f :: rest =>
    let acc := countStatuses viz rest
    match f.job_id with
    | none => acc
    | some j =>
      match lookupKey j viz with
      | none => acc
      | some v =>
        if v.status = "completed" then (acc.1 + 1, acc.2.1, acc.2.2)
        else if v.status = "failed" then (acc.1, acc.2.1 + 1, acc.2.2)
        else (acc.1, acc.2.1, acc.2.2 + 1)

/-- The body of `get_batch_status` on an existing Batch Record
(lines 19-51): recompute the three counters, derive the aggregate status
(`processing` first, then all-failed, then all-completed, else `partial`),
and write counters and status back onto the record, which is also the
response. -/
def get_batch_status_body (viz : List (String × VizRec)) (b : BatchRec) :
    BatchRec :=
  let c := countStatuses viz b.files
  let status :=
    if c.2.2 > 0 then "processing"
    else if c.2.1 = b.files.length then "failed"
    else if c.1 = b.files.length then "completed"
    else "partial"
  { b with status := status, completed_files := c.1, failed_files := c.2.1,
           processing_files := c.2.2 }

/-- The `get_batch_status` endpoint (lines 11-51): 404 (`none`) when the
batch id is unknown; otherwise the recomputed record is both written back
into `batch_jobs` and returned. -/
def get_batch_status (s : AppState) (batch_id : String) :
    Option (BatchRec × AppState) :=
  match lookupKey batch_id s.batch_jobs with
  | none => none
  | some b =>
    let b' := get_batch_status_body s.active_visualizations b
    some (b', { s with batch_jobs := updKey batch_id (fun _ => b') s.batch_jobs })

/-- Modelled from the spec (§3): the aggregate-status rule as a pure function
of the per-file statuses — all failed ⇒ failed; all completed ⇒ completed;
any still processing ⇒ processing; otherwise partial. -/
def batchAggregateSpec (statuses : List String) : String :=
  if ∀ st ∈ statuses, st = "failed" then "failed"
  else if ∀ st ∈ statuses, st = "completed" then "completed"
  else if ∃ st ∈ statuses, ¬ st = "completed" ∧ ¬ st = "failed" then "processing"
  else "partial"

/-- The per-file statuses a Batch Record's entries resolve to under the
current Visualization Records (entries without a record contribute
nothing). -/
def vizStatuses (viz : List (String × VizRec)) (files : List BatchFile) :
    List String :=
  files.filterMap fun f =>
    match f.job_id with
    | none => none
    | some j => (lookupKey j viz).map fun v => v.status

/-! ### Publishing orchestrator — `create_mapbox_tileset_background`,
`src/app/services/background.py` lines 14-216

The two remote Mapbox calls are black-box collaborators: each is modeled as
an `Except`-valued input (`.error msg` for a raised exception, `.ok r` for a
returned result dict). `save_recipe_info` only writes a sidecar file on disk
and touches no record, so it has no footprint in `AppState`. The `file_path`
and `tileset_id` arguments only feed the remote calls and the sidecar, so
they do not appear in the state model. -/

/-- The result dict of `create_raster_tileset` /
`process_netcdf_to_tileset`. `fallback_to_vector` and `error_code` are read
with defaulted / bare `.get`. -/
structure TilesetResult where
  success : Bool
  tileset_id : String := ""
  source_layer : Option String := none
  recipe_id : Option String := none
  publish_job_id : Option String := none
  error : Option String := none
  fallback_to_vector : Bool := false
  error_code : Option ℕ := none
deriving DecidableEq

/-- The orchestrator's environment: configured token, whether the input file
exists on disk, and the outcome of each remote call. -/
structure BgEnv where
  mapbox_token : Option String := none
  file_on_disk : Bool := true
  raster_call : Except String TilesetResult := .ok {success := false}
  vector_call : Except String TilesetResult := .ok {success := false}

/-- Python truthiness of `settings.MAPBOX_TOKEN` (`if not settings.MAPBOX_TOKEN`). -/
def tokenFalsy : Option String → Bool
  | none => true
  | some t => t.isEmpty

/-- Lines 27-33 / 42-48: mark the Visualization Record and the Uploaded File
Record failed with a message (each guarded by `if job_id in ...`). -/
def markVizFileFailed (job_id msg : String) (s : AppState) : AppState :=
  { s with
    active_visualizations := updKey job_id
      (fun v => { v with status := "failed", error := some msg })
      s.active_visualizations,
    uploaded_files := updKey job_id
      (fun f => { f with processing_status := "failed", error := some msg })
      s.uploaded_files }

/-- The `for file_info in files: if file_info.get('job_id') == job_id: ...;
break` pattern: update only the first matching entry. -/
def updFirstFile (job_id : String) (g : BatchFile → BatchFile) :
    List BatchFile → List BatchFile
  | [] => []
  | f :: rest =>
    if f.job_id = some job_id then g f :: rest
    else f :: updFirstFile job_id g rest

/-- The `if batch_id and batch_id in app_state.batch_jobs:` guard around a
first-matching-entry update of the batch's files list. -/
def markBatchEntry (batch_id : Option String) (job_id : String)
    (g : BatchFile → BatchFile) (s : AppState) : AppState :=
  match batch_id with
  | none => s
  | some bid =>
    if bid.isEmpty then s
    else
      { s with
        batch_jobs := updKey bid
          (fun b => { b with files := updFirstFile job_id g b.files })
          s.batch_jobs }

/-- The failure trio repeated at lines 111-131, 175-194 and 196-216: mark the
Visualization Record, the Uploaded File Record, and the first matching Batch
Record file entry failed, with the same error value (an `Option` because the
terminal raster branch stores a bare `result.get('error')`). -/
def markAllFailed (job_id : String) (batch_id : Option String)
    (err : Option String) (s : AppState) : AppState :=
  let s1 : AppState :=
    { s with
      active_visualizations := updKey job_id
        (fun v => { v with status := "failed", error := err })
        s.active_visualizations,
      uploaded_files := updKey job_id
        (fun f => { f with processing_status := "failed", error := err })
        s.uploaded_files }
  markBatchEntry batch_id job_id
    (fun f => { f with status := "failed", error := err }) s1

/-- Lines 70-102: the raster-success update of the three records. -/
def completeRaster (job_id : String) (batch_id : Option String)
    (r : TilesetResult) (s : AppState) : AppState :=
  let s1 : AppState :=
    { s with
      active_visualizations := updKey job_id
        (fun v => { v with
          mapbox_tileset := some r.tileset_id,
          status := "completed",
          format := some "raster-array",
          actual_format := some "raster-array",
          requested_format := some "raster-array",
          source_layer := some (r.source_layer.getD "10winds"),
          recipe_id := r.recipe_id,
          publish_job_id := r.publish_job_id })
        s.active_visualizations,
      uploaded_files := updKey job_id
        (fun f => { f with processing_status := "completed",
                           tileset_id := some r.tileset_id })
        s.uploaded_files }
  markBatchEntry batch_id job_id (fun f => { f with status := "completed" }) s1

/-- Lines 140-173: the vector-success update of the three records; when the
requested format was `raster-array` this is the downgrade landing, which also
sets `format_fallback`, the informational warning, and
`use_client_animation`. -/
def completeVector (job_id : String) (batch_id : Option String)
    (requested : String) (r : TilesetResult) (s : AppState) : AppState :=
  let s1 : AppState :=
    { s with
      active_visualizations := updKey job_id
        (fun v =>
          let v1 := { v with
            mapbox_tileset := some r.tileset_id,
            status := "completed",
            format := some "vector",
            actual_format := some "vector",
            source_layer := some (r.source_layer.getD "weather_data"),
            recipe_id := r.recipe_id,
            publish_job_id := r.publish_job_id }
          if requested = "raster-array" then
            { v1 with
              format_fallback := true,
              warning := some "Created vector format (raster-array requires Pro account)",
              use_client_animation := true }
          else v1)
        s.active_visualizations,
      uploaded_files := updKey job_id
        (fun f => { f with processing_status := "completed",
                           tileset_id := some r.tileset_id })
        s.uploaded_files }
  markBatchEntry batch_id job_id (fun f => { f with status := "completed" }) s1

/-- Lines 133-194: the vector path (entered when the requested format is
vector, or after a raster downgrade). A raised remote call propagates as
`.error` carrying the state at the raise point. -/
def bg_vector_path (env : BgEnv) (job_id : String) (requested : String)
    (batch_id : Option String) (s : AppState) :
    Except (String × AppState) AppState :=
  match env.vector_call with
  | .error e => .error (e, s)
  | .ok r =>
    if r.success then .ok (completeVector job_id batch_id requested r s)
    else .ok (markAllFailed job_id batch_id
      (some (r.error.getD "Unknown error")) s)

/-- The `try` body of `create_mapbox_tileset_background` (lines 24-194).
Exceptions it can raise in this model: a `KeyError` from the unguarded
`active_visualizations[job_id]` read at line 52 (Python renders that
exception's message as the quoted key), and whatever either remote call
raises. The error value carries the state at the raise point, since earlier
mutations persist. -/
def bg_body (env : BgEnv) (job_id : String) (batch_id : Option String)
    (s : AppState) : Except (String × AppState) AppState :=
  if tokenFalsy env.mapbox_token then
    .ok (markVizFileFailed job_id "Mapbox token not configured" s)
  else if ¬ env.file_on_disk then
    .ok (markVizFileFailed job_id "Input file not found" s)
  else
    match lookupKey job_id s.active_visualizations with
    | none => .error ("'" ++ job_id ++ "'", s)
    | some viz =>
      let requested := viz.requested_format.getD "vector"
      if requested = "raster-array" then
        match env.raster_call with
        | .error e => .error (e, s)
        | .ok r =>
          if r.success then .ok (completeRaster job_id batch_id r s)
          else if r.fallback_to_vector ∨ r.error_code = some 422 then
            let s1 : AppState :=
              { s with
                active_visualizations := updKey job_id
                  (fun v => { v with
                    warning := some (r.error.getD "Falling back to vector format"),
                    use_client_animation := true })
                  s.active_visualizations }
            bg_vector_path env job_id requested batch_id s1
          else .ok (markAllFailed job_id batch_id r.error s)
      else bg_vector_path env job_id requested batch_id s

/-- `create_mapbox_tileset_background` (lines 14-216): the `try` body plus
the top-level `except` handler (lines 196-216), which marks whatever records
exist failed with the exception's message. -/
def create_mapbox_tileset_background (env : BgEnv) (job_id : String)
    (batch_id : Option String) (s : AppState) : AppState :=
  match bg_body env job_id batch_id s with
  | .ok s' => s'
  | .error (msg, sErr) => markAllFailed job_id batch_id (some msg) sErr

/-! ### File deletion — `delete_file_and_cleanup`,
`src/app/core/file_manager.py` lines 79-119, and the `delete_file` endpoint,
`src/app/api/files.py` lines 64-86 -/

/-- The on-disk state the deletion path touches: uploaded file paths and the
file names inside `RECIPE_DIR`. -/
structure DiskFS where
  upload_files : List String := []
  recipe_files : List String := []
deriving DecidableEq

/-- Whether a recipe file name matches the glob `f"*{fid}*.json"`
(file_manager.py line 104): it ends with `.json` and contains `fid` before
that suffix. -/
def globJsonMatch (fid : String) (nm : String) : Bool :=
  decide (5 ≤ nm.data.length) &&
  listStartsWith ".json".data (nm.data.drop (nm.data.length - 5)) &&
  strIn fid.data (nm.data.take (nm.data.length - 5))

/-- `delete_file_and_cleanup` (lines 79-119): `False` when the id is unknown;
otherwise unlink the on-disk file if present, drop the Visualization and
Session Records, unlink every recipe file matching `*{file_id}*.json`, drop
the Uploaded File Record, and return `True`. Disk paths are unique, so
`unlink` is a filter. The `try/except` only guards OS-level unlink errors,
which have no counterpart in this model. -/
def delete_file_and_cleanup (file_id : String) (s : AppState) (fs : DiskFS) :
    Bool × AppState × DiskFS :=
  match lookupKey file_id s.uploaded_files with
  | none => (false, s, fs)
  | some fi =>
    let fs1 : DiskFS :=
      { fs with upload_files := fs.upload_files.filter fun p => ¬ p = fi.file_path }
    let s1 : AppState :=
      { s with
        active_visualizations := eraseKey file_id s.active_visualizations,
        active_sessions := eraseKey file_id s.active_sessions }
    let fs2 : DiskFS :=
      { fs1 with recipe_files := fs1.recipe_files.filter fun nm => ¬ globJsonMatch file_id nm }
    let s2 : AppState := { s1 with uploaded_files := eraseKey file_id s1.uploaded_files }
    (true, s2, fs2)

/-- The `DELETE /file/{file_id}` endpoint (files.py lines 64-86): 404 before
any side effect when the id is unknown, else run the cleanup (whose `False`
branch, unreachable after the membership check, would be a 500). The response
is `Except`-coded by HTTP status; state and disk are returned alongside. -/
def delete_file (file_id : String) (s : AppState) (fs : DiskFS) :
    Except ℕ Unit × AppState × DiskFS :=
  if (lookupKey file_id s.uploaded_files).isSome then
    match delete_file_and_cleanup file_id s fs with
    | (true, s', fs') => (.ok (), s', fs')
    | (false, s', fs') => (.error 500, s', fs')
  else (.error 404, s, fs)

/-! ### Batch upload pipeline — `process_batch_upload`,
`src/app/services/processing.py` lines 13-122, and the write-back in
`upload_netcdf_batch`, `src/app/api/upload.py` lines 137-149

Per input file, the loop body saves the upload and runs
`process_netcdf_file`; that whole body can raise (bad file, unreadable
NetCDF), which the loop catches to record an error entry and continue. The
body's outcome per file is therefore an `Except`-valued input. On success,
`process_netcdf_file` itself registers the Visualization Record (status
`processing`), and the loop may register a Session Record and appends to the
*local* `results` accumulator. -/

/-- What a successful per-file ingestion contributes: the synthesized tileset
id and whether animatable wind grid data was produced (truthiness of
`result.get('wind_data')`). -/
structure IngestOut where
  tileset_id : String := ""
  wind_data : Bool := false
deriving DecidableEq

/-- One input of the batch loop: the upload's filename and the outcome of
saving plus `process_netcdf_file` on it (`.error msg` for a raised
exception). -/
structure BatchInput where
  filename : String := ""
  ingest : Except String IngestOut := .ok {}

/-- The loop state: the shared store plus the local `results` accumulator. -/
structure BatchLoopState where
  app : AppState
  results : BatchRec
deriving DecidableEq

/-- One iteration of the `for i, file_data in enumerate(files)` loop
(processing.py lines 34-112), for the file with pre-allocated job id
`job_id`. On failure only the local error list grows (the saved file is
unlinked again, invisible here); on success the Visualization Record is
registered with status `processing`, a Session Record is registered when wind
grid data exists, and the local `files` list and `processed_files` counter
grow. `sched` is `create_tileset and MAPBOX_TOKEN and MAPBOX_USERNAME`: when
true the orchestrator is scheduled and the entry's status is the returned
`processing`. -/
def batchStep (sched : Bool) (batch_id : Option String)
    (inp : BatchInput) (job_id : String) (st : BatchLoopState) :
    BatchLoopState :=
  match inp.ingest with
  | .error e =>
    { st with results :=
      { st.results with errors := st.results.errors ++ [(inp.filename, e)] } }
  | .ok out =>
    let app1 : AppState :=
      { st.app with
        active_visualizations :=
          setKey job_id
            { status := "processing", tileset_id := some out.tileset_id,
              session_id := some job_id, batch_id := batch_id,
              requested_format := some "vector" }
            st.app.active_visualizations }
    let app2 : AppState :=
      if out.wind_data then
        { app1 with
          active_sessions :=
            setKey job_id { batch_id := batch_id } app1.active_sessions }
      else app1
    let entry : BatchFile :=
      { job_id := some job_id, filename := inp.filename, success := true,
        status := if sched then "processing" else "", error := none }
    { app := app2,
      results :=
        { st.results with
          files := st.results.files ++ [entry],
          processed_files := st.results.processed_files + 1 } }

/-- The loop itself, paired with each input's pre-allocated job id. -/
def batchLoop (sched : Bool) (batch_id : Option String) :
    List (BatchInput × String) → BatchLoopState → BatchLoopState
  | [], st => st
  | x :: rest, st =>
    batchLoop sched batch_id rest (batchStep sched batch_id x.1 x.2 st)

/-- The trace of loop states: entry `i` is the state after the first `i`
files (so the head is the initial state and the last entry the final one);
a concurrent reader between files observes exactly these states. -/
def batchTrace (sched : Bool) (batch_id : Option String) :
    List (BatchInput × String) → BatchLoopState → List BatchLoopState
  | [], st => [st]
  | x :: rest, st =>
    st :: batchTrace sched batch_id rest (batchStep sched batch_id x.1 x.2 st)

/-- The fresh `results` accumulator of processing.py lines 24-31. -/
def initialResults (batch_id : Option String) (total : ℕ) : BatchRec :=
  { batch_id := batch_id, total_files := total, processed_files := 0,
    status := "processing", files := [], errors := [] }

/-- `process_batch_upload` (lines 13-122): run the loop from a fresh local
accumulator, then derive the accumulator's final status (all processed ⇒
completed, some ⇒ partial, none ⇒ failed) and return it with the mutated
store. -/
def process_batch_upload (sched : Bool) (batch_id : Option String)
    (inputs : List (BatchInput × String)) (app : AppState) :
    AppState × BatchRec :=
  let st := batchLoop sched batch_id inputs
    ⟨app, initialResults batch_id inputs.length⟩
  let r := st.results
  let status :=
    if r.processed_files = r.total_files then "completed"
    else if 0 < r.processed_files then "partial"
    else "failed"
  (st.app, { r with status := status })

/-- The single write-back of `upload_netcdf_batch` (upload.py line 149):
`app_state.batch_jobs[batch_id].update(result)` merges the accumulator's keys
over the stored Batch Record, leaving keys the accumulator lacks (such as the
three read-side counters) in place. -/
def upload_netcdf_batch_finish (batch_id : String) (r : BatchRec)
    (app : AppState) : AppState :=
  { app with
    batch_jobs := updKey batch_id
      (fun b => { b with batch_id := r.batch_id, total_files := r.total_files,
                         processed_files := r.processed_files,
                         status := r.status, files := r.files,
                         errors := r.errors })
      app.batch_jobs }

/-- The success entries the loop accumulates for a prefix of the inputs. -/
def batchFileEntries (sched : Bool) (inputs : List (BatchInput × String)) :
    List BatchFile :=
  inputs.filterMap fun x =>
    match x.1.ingest with
    | .ok _ => some { job_id := some x.2, filename := x.1.filename,
                      success := true,
                      status := if sched then "processing" else "",
                      error := none }
    | .error _ => none

/-- The error entries the loop accumulates for a prefix of the inputs. -/
def batchErrorEntries (inputs : List (BatchInput × String)) :
    List (String × String) :=
  inputs.filterMap fun x =>
    match x.1.ingest with
    | .ok _ => none
    | .error e => some (x.1.filename, e)

/-- Concrete store exercising the batch-status theorems: under `b1` three
files whose Visualization Records read completed / failed / completed; under
`b2` two entries that resolve to no Visualization Record; under `b3` an empty
files list. -/
def exampleBatchState : AppState :=
  { active_visualizations := [("j1", { status := "completed" }),
      ("j2", { status := "failed" }), ("j3", { status := "completed" })],
    uploaded_files := [],
    batch_jobs :=
      [("b1", { files := [{ job_id := some "j1" }, { job_id := some "j2" },
          { job_id := some "j3" }] }),
       ("b2", { files := [{ job_id := some "jx" }, { job_id := none }] }),
       ("b3", { files := [] })],
    active_sessions := [] }

/-- Concrete store exercising the orchestrator theorems: one job `j1`, still
`processing`, whose requested format is raster-array. -/
def exampleVizState : AppState :=
  { active_visualizations :=
      [("j1", { status := "processing",
                requested_format := some "raster-array" })],
    uploaded_files := [("j1", { processing_status := "processing" })],
    batch_jobs := [], active_sessions := [] }

/-- Orchestrator environment whose raster call reports a tier limitation
(fallback flag and code 422) and whose vector call succeeds. -/
def exampleFallbackEnv : BgEnv :=
  { mapbox_token := some "token", file_on_disk := true,
    raster_call := .ok { success := false, fallback_to_vector := true,
                         error := some "Raster-array requires Pro account",
                         error_code := some 422 },
    vector_call := .ok { success := true, tileset_id := "user.wx_demo" } }

/-- Orchestrator environment whose raster call fails with a plain error
(no fallback flag, no 422). -/
def exampleTerminalEnv : BgEnv :=
  { mapbox_token := some "token", file_on_disk := true,
    raster_call := .ok { success := false, error := some "boom" },
    vector_call := .ok { success := true, tileset_id := "user.wx_demo" } }

/-- Orchestrator environment that raises: the job id is looked up at
background.py line 52 without a guard, so a store with no Visualization
Record for the job makes the body raise `KeyError`. -/
def exampleKeyErrEnv : BgEnv :=
  { mapbox_token := some "token" }

/-- Store with an Uploaded File Record but no Visualization Record for `j1`
(the `KeyError` scenario for the orchestrator's top-level handler). -/
def exampleKeyErrState : AppState :=
  { uploaded_files := [("j1", { processing_status := "processing" })] }

/-- Store exercising the deletion theorems: job `j1` with its file on disk, a
Visualization Record whose synthesized tileset id is `wx_wind_07151230`, and
a Session Record. -/
def exampleDeleteState : AppState :=
  { active_visualizations :=
      [("j1", { status := "completed",
                tileset_id := some "wx_wind_07151230" })],
    uploaded_files :=
      [("j1", { processing_status := "completed",
                file_path := "uploads/j1_wind.nc" })],
    batch_jobs := [],
    active_sessions := [("j1", { file_path := "uploads/j1_wind.nc" })] }

/-- Disk for the deletion theorems: the uploaded file and one recipe sidecar
named by the tileset id (as `save_recipe_info` names them), which contains no
`j1` substring. -/
def exampleDeleteFS : DiskFS :=
  { upload_files := ["uploads/j1_wind.nc"],
    recipe_files := ["recipe_wx_wind_07151230.json"] }

/-- Inputs exercising the batch-upload theorems: two files that both ingest
successfully. -/
def exampleBatchInputs : List (BatchInput × String) :=
  [({ filename := "a.nc", ingest := .ok { tileset_id := "wx_a" } }, "b1_0"),
   ({ filename := "b.nc", ingest := .ok { tileset_id := "wx_b" } }, "b1_1")]

/-- Inputs with a failure in the middle (second file raises during
ingestion). -/
def exampleMixedInputs : List (BatchInput × String) :=
  [({ filename := "a.nc", ingest := .ok { tileset_id := "wx_a" } }, "b1_0"),
   ({ filename := "bad.nc", ingest := .error "unreadable" }, "b1_1"),
   ({ filename := "c.nc", ingest := .ok { tileset_id := "wx_c" } }, "b1_2")]

/-- Store as `upload_netcdf_batch` leaves it just before the loop: the Batch
Record pre-registered with zero progress. -/
def exampleUploadState : AppState :=
  { batch_jobs := [("b1", initialResults (some "b1") 2)] }

/-! ## Theorems -/

/-! ### C4 — center/zoom heuristic -/

/-- C4 counterexample: the thresholds are strict, so a span of exactly 180°
(here latitude 90 to -90, longitude fixed) fails the `> 180` test and lands
on zoom 2, refuting the claim's "span of exactly 180 degrees yields zoom 1". -/
theorem calculate_optimal_view_cx :
    calculate_optimal_view ⟨90, -90, 0, 0⟩ = ([0, 0], 2) ∧
    ¬ (calculate_optimal_view ⟨90, -90, 0, 0⟩).2 = 1 := by
  constructor
  · norm_num [calculate_optimal_view]
  · norm_num [calculate_optimal_view]

/-- C4 (amended: a span of exactly 180° yields zoom 2, as forced by the
claim's own strict `>180` threshold; the rest is as claimed): for every
bounds record, `calculate_optimal_view` returns the arithmetic-midpoint
center `[(east+west)/2, (north+south)/2]` and the zoom picked by the fixed
strict-threshold ladder over `max(north-south, east-west)`; a span of exactly
180° yields zoom 2 and a span of 1.0° yields zoom 9. The function is pure, so
bit-for-bit determinism on equal bounds is definitional. -/
theorem calculate_optimal_view_spec (b : Bounds) :
    calculate_optimal_view b =
      ([(b.east + b.west) / 2, (b.north + b.south) / 2],
        zoomLadderSpec (max (b.north - b.south) (b.east - b.west))) ∧
    (max (b.north - b.south) (b.east - b.west) = 180 →
      (calculate_optimal_view b).2 = 2) ∧
    (max (b.north - b.south) (b.east - b.west) = 1 →
      (calculate_optimal_view b).2 = 9) := by
  refine ⟨rfl, fun h => ?_, fun h => ?_⟩
  · show zoomLadderSpec (max (b.north - b.south) (b.east - b.west)) = 2
    rw [h]
    norm_num [zoomLadderSpec]
  · show zoomLadderSpec (max (b.north - b.south) (b.east - b.west)) = 9
    rw [h]
    norm_num [zoomLadderSpec]

/-- C4 witness: both hypothesised boundary instances realized on concrete
bounds records. -/
theorem calculate_optimal_view_spec_witness :
    (calculate_optimal_view ⟨90, -90, 10, 10⟩).2 = 2 ∧
    (calculate_optimal_view ⟨1, 0, 3, 3⟩).2 = 9 :=
  ⟨(calculate_optimal_view_spec ⟨90, -90, 10, 10⟩).2.1 (by norm_num),
   (calculate_optimal_view_spec ⟨1, 0, 3, 3⟩).2.2 (by norm_num)⟩

/-! ### C9 — geographic bounds extraction -/

/-- C9 counterexample: on a dataset carrying a latitude axis but no longitude
axis, an axis *is* found (so the claim's "returns None if neither axis is
found, otherwise returns the max/min record" demands a bounds record), yet
the code returns `None` because it requires both axes. -/
theorem get_dataset_bounds_cx :
    (findCoord lat_names (Dataset.mk [("lat", [0, 1])]).coords).isSome = true ∧
    findCoord lon_names (Dataset.mk [("lat", [0, 1])]).coords = none ∧
    get_dataset_bounds ⟨[("lat", [0, 1])]⟩ = none := by
  refine ⟨rfl, rfl, rfl⟩

/-- C9 (amended: `None` is returned when *either* axis is missing, not only
when neither is found): `get_dataset_bounds` looks the latitude axis up under
the `lat_names` aliases and the longitude axis under the `lon_names` aliases;
if either lookup fails it returns `None`; if both succeed it returns
`{north, south, east, west}` as the max/min of the latitude axis and the
max/min of the longitude axis; and an extraction error (max/min of an empty
coordinate array raises, caught by the bare `except`) yields `None` rather
than a raised error. -/
theorem get_dataset_bounds_spec (ds : Dataset) :
    ((findCoord lat_names ds.coords = none ∨
        findCoord lon_names ds.coords = none) →
      get_dataset_bounds ds = none) ∧
    (∀ la lo, findCoord lat_names ds.coords = some la →
      findCoord lon_names ds.coords = some lo →
      ((la = [] ∨ lo = []) → get_dataset_bounds ds = none) ∧
      (∀ n s e w, la.max? = some n → la.min? = some s →
        lo.max? = some e → lo.min? = some w →
        get_dataset_bounds ds = some ⟨n, s, e, w⟩)) := by
  constructor
  · intro h
    unfold get_dataset_bounds
    rcases h with h | h
    · rw [h]
    · rw [h]
      cases findCoord lat_names ds.coords <;> rfl
  · intro la lo hla hlo
    constructor
    · intro h
      unfold get_dataset_bounds
      rw [hla, hlo]
      rcases h with h | h <;> subst h <;> simp
    · intro n s e w hn hs he hw
      unfold get_dataset_bounds
      rw [hla, hlo]
      simp [hn, hs, he, hw]

/-- C9 witness: a dataset with both axes present and non-empty, evaluated to
its bounds record through the theorem. -/
theorem get_dataset_bounds_spec_witness :
    get_dataset_bounds ⟨[("lat", [1, 3]), ("lon", [2, 5])]⟩ =
      some ⟨3, 1, 5, 2⟩ :=
  ((get_dataset_bounds_spec ⟨[("lat", [1, 3]), ("lon", [2, 5])]⟩).2
    [1, 3] [2, 5] rfl rfl).2 3 1 5 2 (by decide) (by decide) (by decide)
    (by decide)

/-! ### C1 / C10 — batch status aggregation -/

/-- Reading a key after updating that key sees the update. -/
theorem lookupKey_updKey_self {α : Type} (k : String) (f : α → α)
    (m : List (String × α)) :
    lookupKey k (updKey k f m) = (lookupKey k m).map f := by
  induction m with
  | nil => rfl
  | cons p t ih =>
    obtain ⟨a, v⟩ := p
    simp only [updKey, List.map_cons] at ih ⊢
    by_cases h : a = k
    · rw [if_pos (show (a, v).1 = k from h)]
      simp only [lookupKey]
      rw [if_pos h, if_pos h]
      rfl
    · rw [if_neg (show ¬ (a, v).1 = k from h)]
      simp only [lookupKey]
      rw [if_neg h, if_neg h]
      exact ih

/-- Reading one key after updating another is unaffected. -/
theorem lookupKey_updKey_ne {α : Type} (k k' : String) (f : α → α)
    (m : List (String × α)) (h : ¬ k' = k) :
    lookupKey k' (updKey k f m) = lookupKey k' m := by
  induction m with
  | nil => rfl
  | cons p t ih =>
    obtain ⟨a, v⟩ := p
    simp only [updKey, List.map_cons] at ih ⊢
    by_cases hp : a = k
    · have hne : ¬ a = k' := fun hh => h (hp ▸ hh ▸ rfl)
      rw [if_pos (show (a, v).1 = k from hp)]
      simp only [lookupKey]
      rw [if_neg hne, if_neg hne]
      exact ih
    · rw [if_neg (show ¬ (a, v).1 = k from hp)]
      simp only [lookupKey]
      by_cases hp' : a = k'
      · rw [if_pos hp', if_pos hp']
      · rw [if_neg hp', if_neg hp']
        exact ih

/-- A batch file entry whose job id resolves to no Visualization Record is
counted in no bucket, so if no entry resolves, the three counters are all
zero. -/
theorem countStatuses_orphan (viz : List (String × VizRec))
    (files : List BatchFile)
    (h : ∀ f ∈ files, ∀ j, f.job_id = some j → lookupKey j viz = none) :
    countStatuses viz files = (0, 0, 0) := by
  induction files with
  | nil => rfl
  | cons f rest ih =>
    have hrest := ih fun g hg j hj => h g (List.mem_cons_of_mem f hg) j hj
    simp only [countStatuses, hrest]
    cases hj : f.job_id with
    | none => rfl
    | some j => simp [h f (List.mem_cons_self f rest) j hj]

/-- When every batch file entry's job id resolves to a Visualization Record,
the loop's three counters are the completed / failed / other counts of the
resolved status list, whose length is the number of entries. -/
theorem countStatuses_counts (viz : List (String × VizRec))
    (files : List BatchFile)
    (hall : ∀ f ∈ files, ∃ j, f.job_id = some j ∧
      (lookupKey j viz).isSome) :
    countStatuses viz files =
      ((vizStatuses viz files).countP (fun st => st == "completed"),
       (vizStatuses viz files).countP (fun st => st == "failed"),
       (vizStatuses viz files).countP
         (fun st => !(st == "completed") && !(st == "failed"))) ∧
    (vizStatuses viz files).length = files.length := by
  induction files with
  | nil => exact ⟨rfl, rfl⟩
  | cons f rest ih =>
    obtain ⟨j, hj, hv⟩ := hall f (List.mem_cons_self f rest)
    obtain ⟨v, hv'⟩ := Option.isSome_iff_exists.mp hv
    obtain ⟨ihc, ihl⟩ := ih fun g hg => hall g (List.mem_cons_of_mem f hg)
    have hS : vizStatuses viz (f :: rest) =
        v.status :: vizStatuses viz rest := by
      simp [vizStatuses, List.filterMap_cons, hj, hv']
    constructor
    · simp only [countStatuses, ihc, hj, hv', hS, List.countP_cons]
      by_cases hc : v.status = "completed"
      · simp [hc]
      · by_cases hf : v.status = "failed"
        · simp [hc, hf]
        · simp [hc, hf]
    · rw [hS, List.length_cons, ihl, List.length_cons]

/-- The counter-based aggregate of `get_batch_status` equals the spec's
pure aggregate rule whenever the counters sum over the full status list. -/
theorem batchAgg_code_eq_spec (S : List String) :
    (if 0 < S.countP (fun st => !(st == "completed") && !(st == "failed"))
      then "processing"
      else if S.countP (fun st => st == "failed") = S.length then "failed"
      else if S.countP (fun st => st == "completed") = S.length then "completed"
      else "partial") = batchAggregateSpec S := by
  unfold batchAggregateSpec
  by_cases hf : ∀ st ∈ S, st = "failed"
  · have h1 : S.countP (fun st => !(st == "completed") && !(st == "failed")) = 0 :=
      List.countP_eq_zero.mpr fun st hst => by simp [hf st hst]
    have h2 : S.countP (fun st => st == "failed") = S.length :=
      List.countP_eq_length.mpr fun st hst => by simp [hf st hst]
    rw [if_pos hf, h1, h2]
    simp
  · by_cases hc : ∀ st ∈ S, st = "completed"
    · have hne : S ≠ [] := by
        intro h
        exact hf (by simp [h])
      have h1 : S.countP (fun st => !(st == "completed") && !(st == "failed")) = 0 :=
        List.countP_eq_zero.mpr fun st hst => by simp [hc st hst]
      have h2 : S.countP (fun st => st == "failed") ≠ S.length := by
        intro h
        exact hf fun st hst => by simpa using List.countP_eq_length.mp h st hst
      have h3 : S.countP (fun st => st == "completed") = S.length :=
        List.countP_eq_length.mpr fun st hst => by simp [hc st hst]
      rw [if_neg hf, if_pos hc, h1, h3]
      simp [h2]
    · by_cases ho : ∃ st ∈ S, ¬ st = "completed" ∧ ¬ st = "failed"
      · obtain ⟨st, hst, hst1, hst2⟩ := ho
        have h1 : 0 < S.countP
            (fun st => !(st == "completed") && !(st == "failed")) :=
          List.countP_pos_iff.mpr ⟨st, hst, by simp [hst1, hst2]⟩
        rw [if_pos h1, if_neg hf, if_neg hc,
          if_pos (⟨st, hst, hst1, hst2⟩ :
            ∃ st ∈ S, ¬ st = "completed" ∧ ¬ st = "failed")]
      · have h1 : S.countP (fun st => !(st == "completed") && !(st == "failed")) = 0 :=
          List.countP_eq_zero.mpr fun st hst => by
            by_contra hb
            simp only [Bool.not_eq_false, Bool.and_eq_true, Bool.not_eq_true',
              beq_eq_false_iff_ne] at hb
            exact ho ⟨st, hst, hb.1, hb.2⟩
        have h2 : S.countP (fun st => st == "failed") ≠ S.length := by
          intro h
          exact hf fun st hst => by simpa using List.countP_eq_length.mp h st hst
        have h3 : S.countP (fun st => st == "completed") ≠ S.length := by
          intro h
          exact hc fun st hst => by simpa using List.countP_eq_length.mp h st hst
        rw [if_neg hf, if_neg hc, if_neg ho, h1]
        simp [h2, h3]

/-- C1: when every batch file entry's job id has a Visualization Record, the
batch-status read succeeds, the aggregate status it returns is exactly the
spec's pure function of the per-file statuses (all failed ⇒ failed; all
completed ⇒ completed; any still processing ⇒ processing; otherwise partial),
and the recomputed record is written back onto the stored Batch Record. -/
theorem get_batch_status_aggregate (s : AppState) (batch_id : String)
    (b : BatchRec) (hb : lookupKey batch_id s.batch_jobs = some b)
    (hall0 : ∀ f ∈ b.files,
      (f.job_id.bind fun j => lookupKey j s.active_visualizations).isSome
        = true) :
    (get_batch_status s batch_id).isSome = true ∧
    ∀ b' s', get_batch_status s batch_id = some (b', s') →
      b'.status =
        batchAggregateSpec (vizStatuses s.active_visualizations b.files) ∧
      lookupKey batch_id s'.batch_jobs = some b' := by
  have hopen : get_batch_status s batch_id =
      some (get_batch_status_body s.active_visualizations b,
        { s with
          batch_jobs := updKey batch_id
            (fun _ => get_batch_status_body s.active_visualizations b)
            s.batch_jobs }) := by
    unfold get_batch_status
    rw [hb]
  have hall : ∀ f ∈ b.files, ∃ j, f.job_id = some j ∧
      (lookupKey j s.active_visualizations).isSome := by
    intro f hf
    have h := hall0 f hf
    cases hj : f.job_id with
    | none => rw [hj] at h; simp at h
    | some j =>
      rw [hj] at h
      exact ⟨j, rfl, by simpa using h⟩
  obtain ⟨hcount, hlen⟩ := countStatuses_counts s.active_visualizations b.files hall
  refine ⟨by rw [hopen]; rfl, ?_⟩
  intro b' s' h'
  rw [hopen] at h'
  have hpair := Option.some.inj h'
  rw [Prod.mk.injEq] at hpair
  obtain ⟨hb', hs'⟩ := hpair
  subst hb'
  subst hs'
  constructor
  · show (get_batch_status_body s.active_visualizations b).status = _
    unfold get_batch_status_body
    rw [hcount, ← hlen]
    exact batchAgg_code_eq_spec (vizStatuses s.active_visualizations b.files)
  · show lookupKey batch_id
      (updKey batch_id
        (fun _ => get_batch_status_body s.active_visualizations b)
        s.batch_jobs) =
      some (get_batch_status_body s.active_visualizations b)
    rw [lookupKey_updKey_self, hb]
    rfl

/-- C1 witness: the batch whose files read completed / failed / completed,
pushed through the theorem; the spec aggregate there evaluates to
`partial`. -/
theorem get_batch_status_aggregate_witness :
    ((get_batch_status exampleBatchState "b1").isSome = true ∧
      ∀ b' s', get_batch_status exampleBatchState "b1" = some (b', s') →
        b'.status = batchAggregateSpec (vizStatuses
          exampleBatchState.active_visualizations
          [{ job_id := some "j1" }, { job_id := some "j2" },
            { job_id := some "j3" }]) ∧
        lookupKey "b1" s'.batch_jobs = some b') ∧
    batchAggregateSpec (vizStatuses exampleBatchState.active_visualizations
      [{ job_id := some "j1" }, { job_id := some "j2" },
        { job_id := some "j3" }]) = "partial" :=
  ⟨get_batch_status_aggregate exampleBatchState "b1"
      { files := [{ job_id := some "j1" }, { job_id := some "j2" },
          { job_id := some "j3" }] } rfl (by decide),
    by decide⟩

/-- C10: a batch file entry whose job id resolves to no current Visualization
Record lands in none of the three counters; hence a non-empty batch none of
whose entries resolve reads back `partial` with all counters zero, and a
batch with an empty files list reads back `failed`. -/
theorem get_batch_status_unresolved (s : AppState) (batch_id : String)
    (b : BatchRec) (hb : lookupKey batch_id s.batch_jobs = some b)
    (hnone : ∀ f ∈ b.files,
      (f.job_id.bind fun j => lookupKey j s.active_visualizations) = none) :
    (get_batch_status s batch_id).isSome = true ∧
    ∀ b' s', get_batch_status s batch_id = some (b', s') →
      (¬ b.files = [] → b'.status = "partial" ∧ b'.completed_files = 0 ∧
        b'.failed_files = 0 ∧ b'.processing_files = 0) ∧
      (b.files = [] → b'.status = "failed") := by
  have hopen : get_batch_status s batch_id =
      some (get_batch_status_body s.active_visualizations b,
        { s with
          batch_jobs := updKey batch_id
            (fun _ => get_batch_status_body s.active_visualizations b)
            s.batch_jobs }) := by
    unfold get_batch_status
    rw [hb]
  have hcount : countStatuses s.active_visualizations b.files = (0, 0, 0) := by
    apply countStatuses_orphan
    intro f hf j hj
    have h := hnone f hf
    rw [hj] at h
    simpa using h
  refine ⟨by rw [hopen]; rfl, ?_⟩
  intro b' s' h'
  rw [hopen] at h'
  have hpair := Option.some.inj h'
  rw [Prod.mk.injEq] at hpair
  obtain ⟨hb', _⟩ := hpair
  subst hb'
  constructor
  · intro hne
    have hlen : ¬ ((0 : ℕ) = b.files.length) := by
      intro h0
      exact hne (List.length_eq_zero.mp h0.symm)
    simp [get_batch_status_body, hcount, hlen]
  · intro hempty
    simp [get_batch_status_body, hempty, countStatuses]

/-- C10 witness: the orphan-entries batch reads back `partial` with zero
counters, and the empty-files batch reads back `failed`, both through the
theorem at the example store. -/
theorem get_batch_status_unresolved_witness :
    (∀ b' s', get_batch_status exampleBatchState "b2" = some (b', s') →
      (¬ ([{ job_id := some "jx" }, { job_id := none }] :
          List BatchFile) = [] →
        b'.status = "partial" ∧ b'.completed_files = 0 ∧
        b'.failed_files = 0 ∧ b'.processing_files = 0) ∧
      (([{ job_id := some "jx" }, { job_id := none }] :
          List BatchFile) = [] → b'.status = "failed")) ∧
    (∀ b' s', get_batch_status exampleBatchState "b3" = some (b', s') →
      (¬ ([] : List BatchFile) = [] → b'.status = "partial" ∧
        b'.completed_files = 0 ∧ b'.failed_files = 0 ∧
        b'.processing_files = 0) ∧
      (([] : List BatchFile) = [] → b'.status = "failed")) :=
  ⟨(get_batch_status_unresolved exampleBatchState "b2"
      { files := [{ job_id := some "jx" }, { job_id := none }] }
      rfl (by decide)).2,
   (get_batch_status_unresolved exampleBatchState "b3"
      { files := [] } rfl (by decide)).2⟩

/-! ### C5 — wind component detection -/

/-- Once both axes are assigned the loop changes nothing. -/
theorem windLoop_both (l : List String) (u v : String) :
    windLoop l (some u) (some v) = (some u, some v) := by
  induction l with
  | nil => rfl
  | cons var rest ih => simpa [windLoop] using ih

/-- With the u axis assigned, the loop finds the first v-matching variable. -/
theorem windLoop_u (l : List String) (u : String) :
    windLoop l (some u) none = (some u, l.find? matchesV) := by
  induction l with
  | nil => rfl
  | cons var rest ih =>
    by_cases hv : matchesV var
    · simp [windLoop, hv, windLoop_both]
    · simpa [windLoop, hv] using ih

/-- With the v axis assigned, the loop finds the first u-matching variable. -/
theorem windLoop_v (l : List String) (v : String) :
    windLoop l none (some v) = (l.find? matchesU, some v) := by
  induction l with
  | nil => rfl
  | cons var rest ih =>
    by_cases hu : matchesU var
    · simp [windLoop, hu, windLoop_both]
    · simpa [windLoop, hu] using ih

/-- C5: `find_wind_components` implements exactly the claimed policy — the u
axis gets the first variable whose lowercased name contains a u-pattern
substring, the v axis gets the first other variable (the u choice excluded,
so a variable taken for u is never also returned for v) whose lowercased name
contains a v-pattern substring, and the result is `None` when either axis has
no match; in particular `["u10","v10","temp"]` yields `(u10, v10)` and
`["temp","pressure"]` yields `None`. -/
theorem find_wind_components_policy :
    (∀ vars : List String,
      find_wind_components vars = findVectorComponentsPolicy vars) ∧
    find_wind_components ["u10", "v10", "temp"] = some ("u10", "v10") ∧
    find_wind_components ["temp", "pressure"] = none := by
  refine ⟨?_, by decide, by decide⟩
  intro vars
  induction vars with
  | nil => rfl
  | cons var rest ih =>
    unfold find_wind_components findVectorComponentsPolicy
    by_cases hu : matchesU var
    · have h1 : windLoop (var :: rest) none none =
          (some var, rest.find? matchesV) := by
        simp [windLoop, hu, windLoop_u]
      rw [h1, List.find?_cons_of_pos _ hu, List.eraseP_cons_of_pos hu]
      cases rest.find? matchesV <;> rfl
    · by_cases hv : matchesV var
      · have h1 : windLoop (var :: rest) none none =
            (rest.find? matchesU, some var) := by
          simp [windLoop, hu, hv, windLoop_v]
        rw [h1, List.find?_cons_of_neg _ hu, List.eraseP_cons_of_neg hu]
        cases hfu : rest.find? matchesU with
        | none => rfl
        | some u => rw [List.find?_cons_of_pos _ hv]
      · have h1 : windLoop (var :: rest) none none =
            windLoop rest none none := by
          simp [windLoop, hu, hv]
        rw [h1, List.find?_cons_of_neg _ hu, List.eraseP_cons_of_neg hu]
        unfold find_wind_components findVectorComponentsPolicy at ih
        cases hfu : rest.find? matchesU with
        | none => rw [hfu] at ih; exact ih
        | some u =>
          rw [hfu] at ih
          rw [List.find?_cons_of_neg _ hv]
          exact ih

/-! ### C2 / C3 — publishing orchestrator -/

/-- The batch-entry update touches only `batch_jobs`. -/
theorem markBatchEntry_viz (batch_id : Option String) (job_id : String)
    (g : BatchFile → BatchFile) (s : AppState) :
    (markBatchEntry batch_id job_id g s).active_visualizations =
      s.active_visualizations := by
  unfold markBatchEntry
  cases batch_id with
  | none => rfl
  | some bid => by_cases hb : bid.isEmpty <;> simp [hb]

/-- The batch-entry update touches only `batch_jobs`. -/
theorem markBatchEntry_files (batch_id : Option String) (job_id : String)
    (g : BatchFile → BatchFile) (s : AppState) :
    (markBatchEntry batch_id job_id g s).uploaded_files =
      s.uploaded_files := by
  unfold markBatchEntry
  cases batch_id with
  | none => rfl
  | some bid => by_cases hb : bid.isEmpty <;> simp [hb]

/-- For a truthy batch id the batch-entry update rewrites the first matching
entry of that batch's files list. -/
theorem markBatchEntry_batch (bid : String) (job_id : String)
    (g : BatchFile → BatchFile) (s : AppState) (hb : bid.isEmpty = false) :
    (markBatchEntry (some bid) job_id g s).batch_jobs =
      updKey bid (fun b => { b with files := updFirstFile job_id g b.files })
        s.batch_jobs := by
  unfold markBatchEntry
  simp [hb]

/-- C2: with credentials configured, the file on disk, and a raster-array
request, a remote raster failure flagged `fallback_to_vector` or carrying
error code 422 does not fail the job but goes down the vector path — and if
that vector attempt succeeds the final Visualization Record is `completed`
with `actual_format = vector`, a warning set, `format_fallback = true` and
`use_client_animation = true`; whereas a raster failure with neither the flag
nor code 422 marks the record `failed` with the remote error propagated
verbatim, and the outcome does not depend on the vector collaborator at all
(no vector attempt). -/
theorem bg_raster_fallback_or_terminal (env : BgEnv) (job_id : String)
    (batch_id : Option String) (s : AppState) (viz : VizRec)
    (r : TilesetResult)
    (htok : tokenFalsy env.mapbox_token = false)
    (hdisk : env.file_on_disk = true)
    (hviz : lookupKey job_id s.active_visualizations = some viz)
    (hreq : viz.requested_format.getD "vector" = "raster-array")
    (hr : env.raster_call = .ok r)
    (hfail : r.success = false) :
    ((r.fallback_to_vector = true ∨ r.error_code = some 422) →
      ∀ vr, env.vector_call = .ok vr → vr.success = true →
      ∃ v', lookupKey job_id
          (create_mapbox_tileset_background env job_id batch_id
            s).active_visualizations = some v' ∧
        v'.status = "completed" ∧ v'.actual_format = some "vector" ∧
        v'.warning.isSome = true ∧ v'.format_fallback = true ∧
        v'.use_client_animation = true) ∧
    ((r.fallback_to_vector = false ∧ ¬ r.error_code = some 422) →
      (∃ v', lookupKey job_id
          (create_mapbox_tileset_background env job_id batch_id
            s).active_visualizations = some v' ∧
        v'.status = "failed" ∧ v'.error = r.error) ∧
      ∀ vc, create_mapbox_tileset_background
          { env with vector_call := vc } job_id batch_id s =
        create_mapbox_tileset_background env job_id batch_id s) := by
  constructor
  · intro hAB vr hvc hvs
    have hstep : create_mapbox_tileset_background env job_id batch_id s =
        completeVector job_id batch_id "raster-array" vr
          { s with
            active_visualizations := updKey job_id
              (fun v => { v with
                warning := some (r.error.getD "Falling back to vector format"),
                use_client_animation := true })
              s.active_visualizations } := by
      unfold create_mapbox_tileset_background bg_body bg_vector_path
      rw [htok, hdisk, hviz, hr, hvc]
      rw [if_neg (by decide : ¬ (false = true)),
        if_neg (by decide : ¬ (¬ (true = true)))]
      simp only [hreq, hfail, hvs, Bool.false_eq_true, if_false, if_true,
        eq_self_iff_true, ite_true, ite_false]
      rw [if_pos hAB]
    rw [hstep]
    refine ⟨{ status := "completed", error := viz.error,
              warning := some "Created vector format (raster-array requires Pro account)",
              requested_format := viz.requested_format, format := some "vector",
              actual_format := some "vector", format_fallback := true,
              use_client_animation := true, mapbox_tileset := some vr.tileset_id,
              source_layer := some (vr.source_layer.getD "weather_data"),
              recipe_id := vr.recipe_id, publish_job_id := vr.publish_job_id,
              tileset_id := viz.tileset_id, session_id := viz.session_id,
              batch_id := viz.batch_id }, ?_, rfl, rfl, rfl, rfl, rfl⟩
    unfold completeVector
    rw [markBatchEntry_viz]
    simp only [lookupKey_updKey_self, hviz, Option.map_some']
    rfl
  · intro hB
    obtain ⟨hfb, hcode⟩ := hB
    have key : ∀ e : BgEnv, e.mapbox_token = env.mapbox_token →
        e.file_on_disk = true → e.raster_call = .ok r →
        create_mapbox_tileset_background e job_id batch_id s =
          markAllFailed job_id batch_id r.error s := by
      intro e he1 he2 he3
      unfold create_mapbox_tileset_background bg_body bg_vector_path
      rw [he1, htok, he2, hviz, he3]
      rw [if_neg (by decide : ¬ (false = true)),
        if_neg (by decide : ¬ (¬ (true = true)))]
      simp only [hreq, hfail, Bool.false_eq_true, if_false, if_true,
        eq_self_iff_true, ite_true, ite_false]
      rw [if_neg (by simp [hfb, hcode])]
    have hmain := key env rfl hdisk hr
    constructor
    · rw [hmain]
      refine ⟨{ status := "failed", error := r.error, warning := viz.warning,
                requested_format := viz.requested_format, format := viz.format,
                actual_format := viz.actual_format,
                format_fallback := viz.format_fallback,
                use_client_animation := viz.use_client_animation,
                mapbox_tileset := viz.mapbox_tileset,
                source_layer := viz.source_layer, recipe_id := viz.recipe_id,
                publish_job_id := viz.publish_job_id,
                tileset_id := viz.tileset_id, session_id := viz.session_id,
                batch_id := viz.batch_id }, ?_, rfl, rfl⟩
      unfold markAllFailed
      rw [markBatchEntry_viz]
      simp only [lookupKey_updKey_self, hviz, Option.map_some']
    · intro vc
      rw [hmain, key { env with vector_call := vc } rfl hdisk hr]

/-- C2 witness: both branches realized concretely — the tier-limited raster
failure lands on a completed vector record with warning, fallback flag and
client animation; the plain raster failure lands on a failed record carrying
the remote error verbatim, independent of the vector collaborator. -/
theorem bg_raster_fallback_or_terminal_witness :
    (∃ v', lookupKey "j1"
        (create_mapbox_tileset_background exampleFallbackEnv "j1" none
          exampleVizState).active_visualizations = some v' ∧
      v'.status = "completed" ∧ v'.actual_format = some "vector" ∧
      v'.warning.isSome = true ∧ v'.format_fallback = true ∧
      v'.use_client_animation = true) ∧
    (∃ v', lookupKey "j1"
        (create_mapbox_tileset_background exampleTerminalEnv "j1" none
          exampleVizState).active_visualizations = some v' ∧
      v'.status = "failed" ∧ v'.error = some "boom") ∧
    (∀ vc, create_mapbox_tileset_background
        { exampleTerminalEnv with vector_call := vc } "j1" none
        exampleVizState =
      create_mapbox_tileset_background exampleTerminalEnv "j1" none
        exampleVizState) :=
  ⟨(bg_raster_fallback_or_terminal exampleFallbackEnv "j1" none
      exampleVizState
      { status := "processing", requested_format := some "raster-array" }
      { success := false, fallback_to_vector := true,
        error := some "Raster-array requires Pro account",
        error_code := some 422 }
      rfl rfl rfl rfl rfl rfl).1 (Or.inl rfl)
      { success := true, tileset_id := "user.wx_demo" } rfl rfl,
   ((bg_raster_fallback_or_terminal exampleTerminalEnv "j1" none
      exampleVizState
      { status := "processing", requested_format := some "raster-array" }
      { success := false, error := some "boom" }
      rfl rfl rfl rfl rfl rfl).2 ⟨rfl, by decide⟩).1,
   ((bg_raster_fallback_or_terminal exampleTerminalEnv "j1" none
      exampleVizState
      { status := "processing", requested_format := some "raster-array" }
      { success := false, error := some "boom" }
      rfl rfl rfl rfl rfl rfl).2 ⟨rfl, by decide⟩).2⟩

/-- C3: whatever exception the orchestration body raises, the top-level
handler turns the outcome into the failure trio on the state at the raise
point: an existing Visualization Record reads `failed` with the exception's
message, an existing Uploaded File Record reads `failed` with the message,
and an existing Batch Record's first file entry matching the job id reads
`failed` with the message — no record the handler can identify is left
`processing` by an unhandled fault. -/
theorem bg_faults_caught (env : BgEnv) (job_id : String)
    (batch_id : Option String) (s : AppState) (msg : String) (sErr : AppState)
    (herr : bg_body env job_id batch_id s = .error (msg, sErr)) :
    create_mapbox_tileset_background env job_id batch_id s =
      markAllFailed job_id batch_id (some msg) sErr ∧
    (∀ v, lookupKey job_id sErr.active_visualizations = some v →
      lookupKey job_id (create_mapbox_tileset_background env job_id batch_id
        s).active_visualizations =
        some { v with status := "failed", error := some msg }) ∧
    (∀ f, lookupKey job_id sErr.uploaded_files = some f →
      lookupKey job_id (create_mapbox_tileset_background env job_id batch_id
        s).uploaded_files =
        some { f with processing_status := "failed", error := some msg }) ∧
    (∀ bid b, batch_id = some bid → bid.isEmpty = false →
      lookupKey bid sErr.batch_jobs = some b →
      lookupKey bid (create_mapbox_tileset_background env job_id batch_id
        s).batch_jobs =
        some { b with
               files := updFirstFile job_id
                 (fun fe => { fe with status := "failed", error := some msg })
                 b.files }) := by
  have hmain : create_mapbox_tileset_background env job_id batch_id s =
      markAllFailed job_id batch_id (some msg) sErr := by
    unfold create_mapbox_tileset_background
    rw [herr]
  refine ⟨hmain, ?_, ?_, ?_⟩
  · intro v hv
    rw [hmain]
    unfold markAllFailed
    rw [markBatchEntry_viz]
    simp only [lookupKey_updKey_self, hv, Option.map_some']
  · intro f hf
    rw [hmain]
    unfold markAllFailed
    rw [markBatchEntry_files]
    simp only [lookupKey_updKey_self, hf, Option.map_some']
  · intro bid b hbid hbe hbk
    subst hbid
    rw [hmain]
    unfold markAllFailed
    rw [markBatchEntry_batch _ _ _ _ hbe]
    simp only [lookupKey_updKey_self, hbk, Option.map_some']

/-- C3 witness: the unguarded Visualization Record read raises `KeyError`
(rendered `'j1'`) on a store without that record; the handler marks the
existing Uploaded File Record failed with that message. -/
theorem bg_faults_caught_witness :
    (create_mapbox_tileset_background exampleKeyErrEnv "j1" none
        exampleKeyErrState =
      markAllFailed "j1" none (some "'j1'") exampleKeyErrState) ∧
    (∀ v, lookupKey "j1" exampleKeyErrState.active_visualizations = some v →
      lookupKey "j1" (create_mapbox_tileset_background exampleKeyErrEnv "j1"
        none exampleKeyErrState).active_visualizations =
        some { v with status := "failed", error := some "'j1'" }) ∧
    (∀ f, lookupKey "j1" exampleKeyErrState.uploaded_files = some f →
      lookupKey "j1" (create_mapbox_tileset_background exampleKeyErrEnv "j1"
        none exampleKeyErrState).uploaded_files =
        some { f with processing_status := "failed", error := some "'j1'" }) ∧
    (∀ bid b, (none : Option String) = some bid → bid.isEmpty = false →
      lookupKey bid exampleKeyErrState.batch_jobs = some b →
      lookupKey bid (create_mapbox_tileset_background exampleKeyErrEnv "j1"
        none exampleKeyErrState).batch_jobs =
        some { b with
               files := updFirstFile "j1"
                 (fun fe => { fe with status := "failed", error := some "'j1'" })
                 b.files }) :=
  bg_faults_caught exampleKeyErrEnv "j1" none exampleKeyErrState "'j1'"
    exampleKeyErrState rfl

/-! ### C7 — deletion cascade -/

/-- Reading a key after deleting it finds nothing. -/
theorem lookupKey_eraseKey_self {α : Type} (k : String)
    (m : List (String × α)) :
    lookupKey k (eraseKey k m) = none := by
  induction m with
  | nil => rfl
  | cons p t ih =>
    obtain ⟨a, v⟩ := p
    by_cases h : a = k <;>
      simpa [eraseKey, List.filter_cons, h, lookupKey] using ih

/-- C7 counterexample: deleting `j1` succeeds, yet the recipe sidecar named
by the record's tileset id — whose name contains that tileset id but not the
job id — is still on disk afterwards, refuting the claim that sidecars whose
name contains "the tileset id or the job id" are removed: the cleanup only
globs `*{job_id}*.json`. -/
theorem delete_file_cx :
    (delete_file "j1" exampleDeleteState exampleDeleteFS).1 = .ok () ∧
    (lookupKey "j1" exampleDeleteState.active_visualizations).map
      (fun v => v.tileset_id) = some (some "wx_wind_07151230") ∧
    strIn "wx_wind_07151230".data "recipe_wx_wind_07151230.json".data
      = true ∧
    "recipe_wx_wind_07151230.json" ∈
      (delete_file "j1" exampleDeleteState exampleDeleteFS).2.2.recipe_files :=
  ⟨rfl, rfl, by decide, by decide⟩

/-- C7 (amended: only recipe sidecars whose *name contains the job id* are
removed — the cleanup globs `*{file_id}*.json` and never consults the tileset
id, so tileset-id-named sidecars survive): deleting a job id present in the
Uploaded File table unlinks its on-disk file, drops the Visualization,
Session and Uploaded File Records, removes exactly the recipe sidecars whose
name matches `*{job_id}*.json`, and reports success; a second delete of the
same id, or a delete of an unknown id, reports 404 and changes nothing. -/
theorem delete_file_spec (file_id : String) (s : AppState) (fs : DiskFS) :
    (∀ fi, lookupKey file_id s.uploaded_files = some fi →
      (delete_file file_id s fs).1 = .ok () ∧
      (delete_file file_id s fs).2.2.upload_files =
        fs.upload_files.filter (fun p => ¬ p = fi.file_path) ∧
      lookupKey file_id
        (delete_file file_id s fs).2.1.active_visualizations = none ∧
      lookupKey file_id (delete_file file_id s fs).2.1.active_sessions
        = none ∧
      lookupKey file_id (delete_file file_id s fs).2.1.uploaded_files
        = none ∧
      (∀ nm ∈ fs.recipe_files, globJsonMatch file_id nm = true →
        nm ∉ (delete_file file_id s fs).2.2.recipe_files) ∧
      (∀ nm ∈ fs.recipe_files, globJsonMatch file_id nm = false →
        nm ∈ (delete_file file_id s fs).2.2.recipe_files) ∧
      (delete_file file_id (delete_file file_id s fs).2.1
        (delete_file file_id s fs).2.2).1 = .error 404) ∧
    (lookupKey file_id s.uploaded_files = none →
      delete_file file_id s fs = (.error 404, s, fs)) := by
  constructor
  · intro fi hfi
    have hopen : delete_file file_id s fs =
        (.ok (),
          { s with
            active_visualizations := eraseKey file_id s.active_visualizations,
            active_sessions := eraseKey file_id s.active_sessions,
            uploaded_files := eraseKey file_id s.uploaded_files },
          { upload_files :=
              fs.upload_files.filter fun p => ¬ p = fi.file_path,
            recipe_files :=
              fs.recipe_files.filter fun nm => ¬ globJsonMatch file_id nm }) := by
      unfold delete_file delete_file_and_cleanup
      rw [hfi]
      rfl
    rw [hopen]
    refine ⟨rfl, rfl, lookupKey_eraseKey_self _ _,
      lookupKey_eraseKey_self _ _, lookupKey_eraseKey_self _ _, ?_, ?_, ?_⟩
    · intro nm _ hg hmem
      have := (List.mem_filter.mp hmem).2
      simp [hg] at this
    · intro nm hmem hg
      exact List.mem_filter.mpr ⟨hmem, by simp [hg]⟩
    · show (delete_file file_id
        { s with
          active_visualizations := eraseKey file_id s.active_visualizations,
          active_sessions := eraseKey file_id s.active_sessions,
          uploaded_files := eraseKey file_id s.uploaded_files } _).1 = _
      unfold delete_file
      rw [if_neg]
      simp only [lookupKey_eraseKey_self, Option.isSome_none,
        Bool.false_eq_true, not_false_iff]
  · intro hmiss
    unfold delete_file
    rw [if_neg]
    simp [hmiss]

/-- C7 witness: deleting the present `j1` through the theorem, then the
unknown id `zz` through its 404 branch. -/
theorem delete_file_spec_witness :
    ((delete_file "j1" exampleDeleteState exampleDeleteFS).1 = .ok () ∧
      (delete_file "j1" exampleDeleteState exampleDeleteFS).2.2.upload_files =
        exampleDeleteFS.upload_files.filter
          (fun p => ¬ p = "uploads/j1_wind.nc") ∧
      lookupKey "j1" (delete_file "j1" exampleDeleteState
        exampleDeleteFS).2.1.active_visualizations = none ∧
      lookupKey "j1" (delete_file "j1" exampleDeleteState
        exampleDeleteFS).2.1.active_sessions = none ∧
      lookupKey "j1" (delete_file "j1" exampleDeleteState
        exampleDeleteFS).2.1.uploaded_files = none ∧
      (∀ nm ∈ exampleDeleteFS.recipe_files, globJsonMatch "j1" nm = true →
        nm ∉ (delete_file "j1" exampleDeleteState
          exampleDeleteFS).2.2.recipe_files) ∧
      (∀ nm ∈ exampleDeleteFS.recipe_files, globJsonMatch "j1" nm = false →
        nm ∈ (delete_file "j1" exampleDeleteState
          exampleDeleteFS).2.2.recipe_files) ∧
      (delete_file "j1" (delete_file "j1" exampleDeleteState
          exampleDeleteFS).2.1
        (delete_file "j1" exampleDeleteState exampleDeleteFS).2.2).1 =
        .error 404) ∧
    delete_file "zz" exampleDeleteState exampleDeleteFS =
      (.error 404, exampleDeleteState, exampleDeleteFS) :=
  ⟨(delete_file_spec "j1" exampleDeleteState exampleDeleteFS).1
      { processing_status := "completed", file_path := "uploads/j1_wind.nc" }
      rfl,
   (delete_file_spec "zz" exampleDeleteState exampleDeleteFS).2 rfl⟩

/-! ### C8 — batch upload pipeline -/

/-- One loop iteration never touches the stored Batch Records. -/
theorem batchStep_batch_jobs (sched : Bool) (batch_id : Option String)
    (inp : BatchInput) (job_id : String) (st : BatchLoopState) :
    (batchStep sched batch_id inp job_id st).app.batch_jobs =
      st.app.batch_jobs := by
  unfold batchStep
  cases inp.ingest with
  | error e => rfl
  | ok out => by_cases hw : out.wind_data <;> simp [hw]

/-- The loop, from any starting accumulator, appends exactly the success
entries to `files`, the failure entries to `errors`, and counts the
successes — and leaves the stored Batch Records untouched. -/
theorem batchLoop_spec (sched : Bool) (batch_id : Option String)
    (inputs : List (BatchInput × String)) (st0 : BatchLoopState) :
    (batchLoop sched batch_id inputs st0).results.files =
      st0.results.files ++ batchFileEntries sched inputs ∧
    (batchLoop sched batch_id inputs st0).results.errors =
      st0.results.errors ++ batchErrorEntries inputs ∧
    (batchLoop sched batch_id inputs st0).results.processed_files =
      st0.results.processed_files + (batchFileEntries sched inputs).length ∧
    (batchLoop sched batch_id inputs st0).results.total_files =
      st0.results.total_files ∧
    (batchLoop sched batch_id inputs st0).app.batch_jobs =
      st0.app.batch_jobs := by
  induction inputs generalizing st0 with
  | nil => simp [batchLoop, batchFileEntries, batchErrorEntries]
  | cons x rest ih =>
    obtain ⟨f1, e1, p1, t1, b1⟩ := ih (batchStep sched batch_id x.1 x.2 st0)
    have hstep := batchStep_batch_jobs sched batch_id x.1 x.2 st0
    unfold batchLoop
    refine ⟨?_, ?_, ?_, ?_, ?_⟩
    · rw [f1]
      unfold batchFileEntries at *
      cases hx : x.1.ingest with
      | error e =>
        simp [batchStep, hx, List.filterMap_cons]
      | ok out =>
        by_cases hw : out.wind_data <;>
          simp [batchStep, hx, hw, List.filterMap_cons]
    · rw [e1]
      unfold batchErrorEntries at *
      cases hx : x.1.ingest with
      | error e =>
        simp [batchStep, hx, List.filterMap_cons]
      | ok out =>
        by_cases hw : out.wind_data <;>
          simp [batchStep, hx, hw, List.filterMap_cons]
    · rw [p1]
      unfold batchFileEntries at *
      cases hx : x.1.ingest with
      | error e =>
        simp [batchStep, hx, List.filterMap_cons]
      | ok out =>
        by_cases hw : out.wind_data <;>
          simp [batchStep, hx, hw, List.filterMap_cons, Nat.add_assoc,
            Nat.add_comm 1]
    · rw [t1]
      cases hx : x.1.ingest with
      | error e => simp [batchStep, hx]
      | ok out => by_cases hw : out.wind_data <;> simp [batchStep, hx, hw]
    · rw [b1, hstep]

/-- Every state the trace exposes between files carries the accumulator for
exactly the processed prefix, and the stored Batch Records of every such
state equal the initial ones. -/
theorem batchTrace_spec (sched : Bool) (batch_id : Option String)
    (inputs : List (BatchInput × String)) (st0 : BatchLoopState) :
    (batchTrace sched batch_id inputs st0).length = inputs.length + 1 ∧
    (∀ st ∈ batchTrace sched batch_id inputs st0,
      st.app.batch_jobs = st0.app.batch_jobs) ∧
    ∀ i st, (batchTrace sched batch_id inputs st0).get? i = some st →
      st.results.files =
        st0.results.files ++ batchFileEntries sched (inputs.take i) ∧
      st.results.errors =
        st0.results.errors ++ batchErrorEntries (inputs.take i) ∧
      st.results.processed_files = st0.results.processed_files +
        (batchFileEntries sched (inputs.take i)).length := by
  induction inputs generalizing st0 with
  | nil =>
    refine ⟨rfl, ?_, ?_⟩
    · intro st hst
      simp [batchTrace] at hst
      rw [hst]
    · intro i st hst
      cases i with
      | zero =>
        simp [batchTrace] at hst
        simp [hst, batchFileEntries, batchErrorEntries]
      | succ n => simp [batchTrace] at hst
  | cons x rest ih =>
    obtain ⟨ihlen, ihjobs, ihpref⟩ :=
      ih (batchStep sched batch_id x.1 x.2 st0)
    have hstep := batchStep_batch_jobs sched batch_id x.1 x.2 st0
    have hacc := batchLoop_spec sched batch_id [x] st0
    have hone : (batchStep sched batch_id x.1 x.2 st0).results.files =
        st0.results.files ++ batchFileEntries sched [x] ∧
        (batchStep sched batch_id x.1 x.2 st0).results.errors =
          st0.results.errors ++ batchErrorEntries [x] ∧
        (batchStep sched batch_id x.1 x.2 st0).results.processed_files =
          st0.results.processed_files +
            (batchFileEntries sched [x]).length := by
      have h := batchLoop_spec sched batch_id [x] st0
      simpa [batchLoop] using ⟨h.1, h.2.1, h.2.2.1⟩
    refine ⟨by simp [batchTrace, ihlen], ?_, ?_⟩
    · intro st hst
      simp only [batchTrace, List.mem_cons] at hst
      rcases hst with hst | hst
      · rw [hst]
      · rw [ihjobs st hst, hstep]
    · intro i st hst
      cases i with
      | zero =>
        simp only [batchTrace, List.get?_cons_zero, Option.some.injEq] at hst
        simp [← hst, batchFileEntries, batchErrorEntries]
      | succ n =>
        simp only [batchTrace, List.get?_cons_succ] at hst
        obtain ⟨hf, he, hp⟩ := ihpref n st hst
        refine ⟨?_, ?_, ?_⟩
        · rw [hf, hone.1]
          cases hx : x.1.ingest <;>
            simp [batchFileEntries, List.take_succ_cons, List.filterMap_cons,
              hx]
        · rw [he, hone.2.1]
          cases hx : x.1.ingest <;>
            simp [batchErrorEntries, List.take_succ_cons, List.filterMap_cons,
              hx]
        · rw [hp, hone.2.2]
          cases hx : x.1.ingest with
          | error e =>
            simp [batchFileEntries, List.take_succ_cons, List.filterMap_cons,
              hx]
          | ok out =>
            simp [batchFileEntries, List.take_succ_cons, List.filterMap_cons,
              hx]
            omega

/-- C8 counterexample: two files, both ingesting successfully, with the Batch
Record pre-registered at zero progress. After the first file has completed
its ingestion (trace index 1) the local accumulator counts it, but the stored
Batch Record still reads zero processed files and status `processing`: the
loop never writes the store, so a concurrent reader of the Batch Record
between files does not observe the claimed partial progress. -/
theorem process_batch_upload_cx :
    ((batchTrace true (some "b1") exampleBatchInputs
        ⟨exampleUploadState, initialResults (some "b1") 2⟩).get? 1).map
        (fun st => st.results.processed_files) = some 1 ∧
    ((batchTrace true (some "b1") exampleBatchInputs
        ⟨exampleUploadState, initialResults (some "b1") 2⟩).get? 1).map
        (fun st => st.app.batch_jobs) =
      some [("b1", initialResults (some "b1") 2)] ∧
    (initialResults (some "b1") 2).processed_files = 0 ∧
    (initialResults (some "b1") 2).status = "processing" :=
  ⟨rfl, rfl, rfl, rfl⟩

/-- C8 (amended: the loop continues past individual failures and accumulates
successes and failures — but only in the *local* results object; the stored
Batch Record is not modified during the loop and is updated exactly once,
with the accumulated result, by the caller's write-back after all files, so
no partial progress is visible on the Batch Record between files): trace
states carry exactly the processed prefix in the local accumulator while the
stored Batch Records stay at their initial value; the final accumulator holds
every success and every failure with the derived completed/partial/failed
status; and the caller's single `dict.update` merge is what lands on the
stored record. -/
theorem process_batch_upload_spec (sched : Bool) (batch_id : Option String)
    (inputs : List (BatchInput × String)) (app : AppState) :
    (∀ st ∈ batchTrace sched batch_id inputs
        ⟨app, initialResults batch_id inputs.length⟩,
      st.app.batch_jobs = app.batch_jobs) ∧
    (∀ i st, (batchTrace sched batch_id inputs
        ⟨app, initialResults batch_id inputs.length⟩).get? i = some st →
      st.results.files = batchFileEntries sched (inputs.take i) ∧
      st.results.errors = batchErrorEntries (inputs.take i) ∧
      st.results.processed_files =
        (batchFileEntries sched (inputs.take i)).length) ∧
    (process_batch_upload sched batch_id inputs app).2.files =
      batchFileEntries sched inputs ∧
    (process_batch_upload sched batch_id inputs app).2.errors =
      batchErrorEntries inputs ∧
    (process_batch_upload sched batch_id inputs app).2.processed_files =
      (batchFileEntries sched inputs).length ∧
    (process_batch_upload sched batch_id inputs app).1.batch_jobs =
      app.batch_jobs ∧
    (process_batch_upload sched batch_id inputs app).2.status =
      (if (batchFileEntries sched inputs).length = inputs.length
        then "completed"
        else if 0 < (batchFileEntries sched inputs).length then "partial"
        else "failed") ∧
    (∀ bid r b0,
      lookupKey bid (process_batch_upload sched batch_id inputs
        app).1.batch_jobs = some b0 →
      lookupKey bid (upload_netcdf_batch_finish bid r
        (process_batch_upload sched batch_id inputs app).1).batch_jobs =
        some { b0 with batch_id := r.batch_id,
                       total_files := r.total_files,
                       processed_files := r.processed_files,
                       status := r.status,
                       files := r.files, errors := r.errors }) := by
  obtain ⟨htl, hte, htp⟩ :=
    batchTrace_spec sched batch_id inputs
      ⟨app, initialResults batch_id inputs.length⟩
  obtain ⟨hlf, hle, hlp, hlt, hlb⟩ :=
    batchLoop_spec sched batch_id inputs
      ⟨app, initialResults batch_id inputs.length⟩
  refine ⟨hte, ?_, ?_, ?_, ?_, ?_, ?_, ?_⟩
  · intro i st hst
    obtain ⟨hf, he, hp⟩ := htp i st hst
    exact ⟨by simpa [initialResults] using hf,
      by simpa [initialResults] using he,
      by simpa [initialResults] using hp⟩
  · show (batchLoop sched batch_id inputs _).results.files = _
    simpa [initialResults] using hlf
  · show (batchLoop sched batch_id inputs _).results.errors = _
    simpa [initialResults] using hle
  · show (batchLoop sched batch_id inputs _).results.processed_files = _
    simpa [initialResults] using hlp
  · show (batchLoop sched batch_id inputs _).app.batch_jobs = _
    simpa [initialResults] using hlb
  · show (if (batchLoop sched batch_id inputs _).results.processed_files =
        (batchLoop sched batch_id inputs _).results.total_files
      then "completed"
      else if 0 < (batchLoop sched batch_id inputs
          _).results.processed_files
        then "partial" else "failed") = _
    rw [hlp, hlt]
    simp [initialResults]
  · intro bid r b0 hb0
    unfold upload_netcdf_batch_finish
    simp only [lookupKey_updKey_self, hb0, Option.map_some']

/-- C8 witness: three files where the middle one fails — the loop runs to the
end, the accumulator holds the one error and two successes with status
`partial`, the caller's merge lands on the stored record, and the state after
two processed files still carries the initial stored Batch Records. -/
theorem process_batch_upload_spec_witness :
    (process_batch_upload true (some "b1") exampleMixedInputs
        exampleUploadState).2.errors = [("bad.nc", "unreadable")] ∧
    (process_batch_upload true (some "b1") exampleMixedInputs
        exampleUploadState).2.processed_files = 2 ∧
    (process_batch_upload true (some "b1") exampleMixedInputs
        exampleUploadState).2.status = "partial" ∧
    ((batchTrace true (some "b1") exampleMixedInputs
        ⟨exampleUploadState, initialResults (some "b1") 3⟩).get? 2).map
      (fun st => st.app.batch_jobs) = some exampleUploadState.batch_jobs := by
  have h := process_batch_upload_spec true (some "b1") exampleMixedInputs
    exampleUploadState
  refine ⟨h.2.2.2.1.trans (by decide), h.2.2.2.2.1.trans (by decide),
    h.2.2.2.2.2.2.1.trans (by decide), ?_⟩
  cases hg : (batchTrace true (some "b1") exampleMixedInputs
      ⟨exampleUploadState, initialResults (some "b1") 3⟩).get? 2 with
  | none => exact absurd hg (by decide)
  | some st =>
    have hm := h.1 st (List.get?_mem hg)
    simp [hm]

/-! ### C6 — tileset id synthesis

Character-level facts: the ASCII functions `Char.toLower` /
`Char.isAlphanum`, the facts assumed of Python's Unicode-aware `str.lower` /
`str.isalnum` (`PyCase.Sound`), then the sanitizer pipeline, parametric in
those primitives. -/

/-- Packing a small scalar value round-trips through `Char.ofNat`. -/
theorem char_toNat_ofNat (n : ℕ) (h : n < 55296) :
    (Char.ofNat n).toNat = n := by
  have hv : n.isValidChar := Or.inl h
  unfold Char.ofNat
  rw [dif_pos hv]
  simp [Char.ofNatAux, Char.toNat, UInt32.toNat, BitVec.toNat_ofNatLt]

/-- Characters with equal codepoints are equal. -/
theorem char_eq_of_toNat {c d : Char} (h : c.toNat = d.toNat) : c = d := by
  apply Char.ext
  exact UInt32.toNat.inj h

/-- Order on `UInt32` is the order of the underlying numerals. -/
theorem uint32_le_iff_toNat_le (a b : UInt32) : a ≤ b ↔ a.toNat ≤ b.toNat := by
  rw [UInt32.le_def, BitVec.le_def]
  rfl

/-- `Char.toLower` on an ASCII capital adds 32. -/
theorem toLower_of_upper (c : Char) (h : 65 ≤ c.toNat ∧ c.toNat ≤ 90) :
    Char.toLower c = Char.ofNat (c.toNat + 32) := by
  unfold Char.toLower
  rw [if_pos]
  exact ⟨h.1, h.2⟩

/-- `Char.toLower` fixes everything that is not an ASCII capital. -/
theorem toLower_of_not_upper (c : Char)
    (h : ¬ (65 ≤ c.toNat ∧ c.toNat ≤ 90)) : Char.toLower c = c := by
  unfold Char.toLower
  rw [if_neg]
  exact fun hc => h ⟨hc.1, hc.2⟩

/-- `Char.isAlphanum` by codepoint ranges. -/
theorem isAlphanum_iff (c : Char) : c.isAlphanum = true ↔
    (65 ≤ c.toNat ∧ c.toNat ≤ 90) ∨ (97 ≤ c.toNat ∧ c.toNat ≤ 122) ∨
    (48 ≤ c.toNat ∧ c.toNat ≤ 57) := by
  simp only [Char.isAlphanum, Char.isAlpha, Char.isUpper, Char.isLower,
    Char.isDigit, Bool.or_eq_true, Bool.and_eq_true, decide_eq_true_eq,
    ge_iff_le, uint32_le_iff_toNat_le]
  show (65 ≤ c.toNat ∧ c.toNat ≤ 90 ∨ 97 ≤ c.toNat ∧ c.toNat ≤ 122) ∨
      48 ≤ c.toNat ∧ c.toNat ≤ 57 ↔ _
  tauto

/-- `Char.isDigit` by codepoint range. -/
theorem isDigit_iff (c : Char) : c.isDigit = true ↔
    48 ≤ c.toNat ∧ c.toNat ≤ 57 := by
  simp only [Char.isDigit, Bool.and_eq_true, decide_eq_true_eq, ge_iff_le,
    uint32_le_iff_toNat_le]
  show 48 ≤ c.toNat ∧ c.toNat ≤ 57 ↔ _
  rfl

/-- The `[a-z0-9_-]` class by codepoint. -/
theorem lowerAllowedChar_iff (c : Char) : lowerAllowedChar c = true ↔
    (97 ≤ c.toNat ∧ c.toNat ≤ 122) ∨ (48 ≤ c.toNat ∧ c.toNat ≤ 57) ∨
    c.toNat = 45 ∨ c.toNat = 95 := by
  unfold lowerAllowedChar
  simp only [Bool.or_eq_true, Bool.and_eq_true, decide_eq_true_eq]
  constructor
  · rintro (((h1 | h1) | h1) | h1)
    · exact Or.inl h1
    · exact Or.inr (Or.inl h1)
    · rw [show c = '-' from h1]
      exact Or.inr (Or.inr (Or.inl rfl))
    · rw [show c = '_' from h1]
      exact Or.inr (Or.inr (Or.inr rfl))
  · rintro (h1 | h1 | h1 | h1)
    · exact Or.inl (Or.inl (Or.inl h1))
    · exact Or.inl (Or.inl (Or.inr h1))
    · exact Or.inl (Or.inr (char_eq_of_toNat h1))
    · exact Or.inr (char_eq_of_toNat h1)

/-- ASCII lowering is idempotent. -/
theorem toLower_idem (c : Char) :
    Char.toLower (Char.toLower c) = Char.toLower c := by
  by_cases hu : 65 ≤ c.toNat ∧ c.toNat ≤ 90
  · rw [toLower_of_upper c hu]
    apply toLower_of_not_upper
    rw [char_toNat_ofNat (c.toNat + 32) (by omega)]
    omega
  · rw [toLower_of_not_upper c hu]
    exact toLower_of_not_upper c hu

/-- The ASCII instance satisfies everything the proofs assume of the
program's primitives. -/
theorem asciiPy_sound : asciiPy.Sound :=
  ⟨fun _ _ => rfl, fun _ _ => rfl, toLower_idem⟩

/-- An ASCII character fixed by ASCII lowering and ASCII-alphanumeric is
fixed by any sound instance's lowering and kept by its filter. -/
theorem ascii_fix (py : PyCase) (hpy : py.Sound) (c : Char)
    (h1 : c.toNat < 128) (h2 : Char.toLower c = c)
    (h3 : Char.isAlphanum c = true) :
    py.lower c = c ∧ pyAllowedChar py c = true := by
  constructor
  · rw [hpy.1 c h1]
    exact h2
  · unfold pyAllowedChar
    rw [hpy.2.1 c h1, h3]
    rfl

/-- The underscore is fixed by lowering and kept by the filter. -/
theorem underscore_pyFixed (py : PyCase) (hpy : py.Sound) :
    py.lower '_' = '_' ∧ pyAllowedChar py '_' = true := by
  constructor
  · rw [hpy.1 '_' (by decide)]
    decide
  · unfold pyAllowedChar
    simp

/-- Digits are fixed by lowering and kept by the filter. -/
theorem digit_pyFixed (py : PyCase) (hpy : py.Sound) (c : Char)
    (h : c.isDigit = true) :
    py.lower c = c ∧ pyAllowedChar py c = true := by
  rw [isDigit_iff] at h
  apply ascii_fix py hpy c (by omega)
  · apply toLower_of_not_upper
    omega
  · rw [isAlphanum_iff]
    omega

/-- An ASCII character that is fixed by lowering and kept by the filter lies
in `[a-z0-9_-]` (non-ASCII characters are exactly the ones this argument
cannot cover: a kept non-ASCII alphanumeric is outside the class). -/
theorem pyFixed_ascii_lowerAllowed (py : PyCase) (hpy : py.Sound) (c : Char)
    (h128 : c.toNat < 128) (h1 : py.lower c = c)
    (h2 : pyAllowedChar py c = true) : lowerAllowedChar c = true := by
  rw [hpy.1 c h128] at h1
  unfold pyAllowedChar at h2
  rw [hpy.2.1 c h128] at h2
  rw [lowerAllowedChar_iff]
  simp only [Bool.or_eq_true, decide_eq_true_eq, isAlphanum_iff] at h2
  rcases h2 with ((ha | ha | ha) | ha) | ha
  · exfalso
    rw [toLower_of_upper c ha] at h1
    have h3 := char_toNat_ofNat (c.toNat + 32) (by omega)
    rw [h1] at h3
    omega
  · exact Or.inl ha
  · exact Or.inr (Or.inl ha)
  · rw [ha]
    decide
  · rw [ha]
    decide

/-- A function that fixes every member of a list maps it to itself. -/
theorem map_id_of_eq {α : Type} (f : α → α) (l : List α)
    (h : ∀ a ∈ l, f a = a) : l.map f = l := by
  induction l with
  | nil => rfl
  | cons a t ih =>
    rw [List.map_cons, h a (List.mem_cons_self a t),
      ih fun x hx => h x (List.mem_cons_of_mem a hx)]

/-- The lower-then-filter pass fixes strings whose characters are fixed by
lowering and kept by the filter. -/
theorem pySan_fixed (py : PyCase) (l : List Char)
    (h : ∀ c ∈ l, py.lower c = c ∧ pyAllowedChar py c = true) :
    pySan py l = l := by
  unfold pySan
  rw [map_id_of_eq _ _ fun c hc => (h c hc).1]
  exact List.filter_eq_self.mpr fun c hc => (h c hc).2

/-- The lower-then-filter pass distributes over concatenation. -/
theorem pySan_append (py : PyCase) (a b : List Char) :
    pySan py (a ++ b) = pySan py a ++ pySan py b := by
  simp [pySan]

/-- The lower-then-filter pass keeps a leading underscore. -/
theorem pySan_underscore_cons (py : PyCase) (hpy : py.Sound)
    (l : List Char) : pySan py ('_' :: l) = '_' :: pySan py l := by
  unfold pySan
  rw [List.map_cons, (underscore_pyFixed py hpy).1,
    List.filter_cons_of_pos ((underscore_pyFixed py hpy).2)]

/-- Everything the lower-then-filter pass emits is fixed by lowering (by
idempotence) and kept by the filter. -/
theorem mem_pySan (py : PyCase) (hpy : py.Sound) (l : List Char) :
    ∀ c ∈ pySan py l, py.lower c = c ∧ pyAllowedChar py c = true := by
  intro c hc
  unfold pySan at hc
  obtain ⟨hmem, hkeep⟩ := List.mem_filter.mp hc
  obtain ⟨d, _, hd⟩ := List.mem_map.mp hmem
  refine ⟨?_, hkeep⟩
  rw [← hd]
  exact hpy.2.2 d

/-- The pass never lengthens a string. -/
theorem pySan_length_le (py : PyCase) (l : List Char) :
    (pySan py l).length ≤ l.length := by
  unfold pySan
  exact Nat.le_trans (List.length_filter_le _ _) (by simp)

/-- `splitUnd` produces no new characters. -/
theorem splitUnd_ne_nil (l : List Char) : splitUnd l ≠ [] := by
  cases l with
  | nil => simp [splitUnd]
  | cons a t =>
    unfold splitUnd
    by_cases h : a = '_'
    · simp [h]
    · rw [if_neg h]
      cases splitUnd t <;> simp

/-- `splitUnd` produces no new characters. -/
theorem splitUnd_mem (l : List Char) (p : List Char) (hp : p ∈ splitUnd l)
    (c : Char) (hc : c ∈ p) : c ∈ l := by
  induction l generalizing p with
  | nil =>
    simp [splitUnd] at hp
    rw [hp] at hc
    simp at hc
  | cons a t ih =>
    unfold splitUnd at hp
    by_cases h : a = '_'
    · rw [if_pos h] at hp
      rcases List.mem_cons.mp hp with hp | hp
      · rw [hp] at hc
        simp at hc
      · exact List.mem_cons_of_mem a (ih p hp hc)
    · rw [if_neg h] at hp
      cases heq : splitUnd t with
      | nil => exact absurd heq (splitUnd_ne_nil t)
      | cons q r =>
        rw [heq] at hp
        rcases List.mem_cons.mp hp with hp | hp
        · rw [hp] at hc
          rcases List.mem_cons.mp hc with hc | hc
          · rw [hc]
            exact List.mem_cons_self a t
          · exact List.mem_cons_of_mem a
              (ih q (heq ▸ List.mem_cons_self q r) hc)
        · exact List.mem_cons_of_mem a
            (ih p (heq ▸ List.mem_cons_of_mem q hp) hc)

/-- A character of a `'_'`-join is an underscore or comes from a part. -/
theorem joinUnd_mem (ps : List (List Char)) (c : Char)
    (hc : c ∈ joinUnd ps) : c = '_' ∨ ∃ p ∈ ps, c ∈ p := by
  induction ps with
  | nil => simp [joinUnd] at hc
  | cons p rest ih =>
    cases rest with
    | nil =>
      exact Or.inr ⟨p, List.mem_cons_self p [], by simpa [joinUnd] using hc⟩
    | cons q qs =>
      rw [show joinUnd (p :: q :: qs) = p ++ '_' :: joinUnd (q :: qs)
        from rfl] at hc
      rcases List.mem_append.mp hc with hc | hc
      · exact Or.inr ⟨p, List.mem_cons_self p _, hc⟩
      · rcases List.mem_cons.mp hc with hc | hc
        · exact Or.inl hc
        · rcases ih hc with h1 | ⟨r, hr, hcr⟩
          · exact Or.inl h1
          · exact Or.inr ⟨r, List.mem_cons_of_mem p hr, hcr⟩

/-- Every character the sanitizer's collapse step emits is fixed by
lowering and kept by the filter: it is an inserted `'_'`, a replacement
`'_'`, or a lowered character the filter kept. -/
theorem sanitizeName_fixed (py : PyCase) (hpy : py.Sound) (n : List Char) :
    ∀ c ∈ sanitizeName py n, py.lower c = c ∧ pyAllowedChar py c = true := by
  intro c hc
  unfold sanitizeName at hc
  rcases joinUnd_mem _ c hc with h1 | ⟨p, hp, hcp⟩
  · rw [h1]
    exact underscore_pyFixed py hpy
  · have hp' := (List.mem_filter.mp hp).1
    have hmem := splitUnd_mem _ p hp' c hcp
    obtain ⟨d, hd, hde⟩ := List.mem_map.mp hmem
    obtain ⟨e, _, hee⟩ := List.mem_map.mp hd
    by_cases hal : pyAllowedChar py d
    · rw [if_pos hal] at hde
      subst hde
      refine ⟨?_, hal⟩
      rw [← hee]
      exact hpy.2.2 e
    · rw [if_neg hal] at hde
      rw [← hde]
      exact underscore_pyFixed py hpy

/-- Stripping trailing underscores is the identity when the last character is
not an underscore. -/
theorem rstripUnd_of_last_ne (l : List Char) (d : Char) (hd : ¬ d = '_') :
    rstripUnd (l ++ [d]) = l ++ [d] := by
  unfold rstripUnd
  rw [List.reverse_append]
  simp [List.dropWhile_cons, hd]

/-- A list starts with itself, whatever follows. -/
theorem listStartsWith_append_self (a b : List Char) :
    listStartsWith a (a ++ b) = true := by
  induction a with
  | nil => rfl
  | cons p ps ih => simp [listStartsWith, ih]

/-- C6 counterexample: with batch id `ABCDEFGH` the generated id is
`wxb_abcdefgh_data_07151230` — the batch segment is lowercased by the final
sanitize pass, so the id does *not* begin with `wxb_` followed by the first 8
characters of the batch id as the claim states. Every input character here is
ASCII, on which Python's `lower`/`isalnum` coincide with the `asciiPy`
instance, so this evaluation is an exact trace of the program. -/
theorem generate_tileset_id_cx :
    generate_tileset_id asciiPy "f" (some "data") (some "ABCDEFGH")
      "07151230" = "wxb_abcdefgh_data_07151230" ∧
    listStartsWith "wxb_ABCDEFGH".data
      (generate_tileset_id asciiPy "f" (some "data") (some "ABCDEFGH")
        "07151230").data = false :=
  ⟨by decide, by decide⟩

/-- C6 (amended twice: the kept character class is Python's Unicode-aware
`isalnum` plus `-`/`_` — a non-ASCII alphanumeric in a user-supplied name
survives, so only the *ASCII* characters of the id are guaranteed to lie in
`[a-z0-9_-]`; and the id begins with `wxb_` followed by the *sanitized*
first 8 characters of the batch id, not those characters verbatim): for any
lower/isalnum primitives satisfying the facts true of Python's
(`PyCase.Sound`) and a fixed 8-digit clock rendering, `generate_tileset_id`
returns the prefix, sanitized truncated name and timestamp joined by
underscores; the result has at most 32 characters, each fixed by lowering
and either alphanumeric, `-` or `_`, with every ASCII character in
`[a-z0-9_-]`; it never ends in `_`, begins with `wx` when no batch id is
given and with `wxb_` plus the sanitized first 8 batch-id characters when
one is given. Determinism for fixed inputs and clock is definitional (the
function is pure). -/
theorem generate_tileset_id_spec (py : PyCase) (stem : String)
    (tileset_name : Option String) (batch_id : Option String) (ts : String)
    (hpy : py.Sound) (hlen : ts.data.length = 8)
    (hdig : ∀ c ∈ ts.data, c.isDigit = true) :
    (generate_tileset_id py stem tileset_name batch_id ts).data =
      pySan py (tilesetPfx batch_id) ++
        '_' :: (truncatedName py stem tileset_name batch_id ts ++
          '_' :: ts.data) ∧
    (generate_tileset_id py stem tileset_name batch_id ts).data.length ≤ 32 ∧
    (∀ c ∈ (generate_tileset_id py stem tileset_name batch_id ts).data,
      py.lower c = c ∧ pyAllowedChar py c = true) ∧
    (∀ c ∈ (generate_tileset_id py stem tileset_name batch_id ts).data,
      c.toNat < 128 → lowerAllowedChar c = true) ∧
    ¬ (generate_tileset_id py stem tileset_name batch_id ts).data.getLast?
      = some '_' ∧
    (batch_id = none →
      listStartsWith "wx".data
        (generate_tileset_id py stem tileset_name batch_id ts).data
        = true) ∧
    (∀ bs, batch_id = some bs → bs.isEmpty = false →
      listStartsWith ("wxb_".data ++ pySan py (bs.data.take 8))
        (generate_tileset_id py stem tileset_name batch_id ts).data
        = true) := by
  have hts_fixed : ∀ c ∈ ts.data,
      py.lower c = c ∧ pyAllowedChar py c = true :=
    fun c hc => digit_pyFixed py hpy c (hdig c hc)
  have hname2 : ∀ c ∈ truncatedName py stem tileset_name batch_id ts,
      py.lower c = c ∧ pyAllowedChar py c = true := by
    intro c hc
    unfold truncatedName at hc
    dsimp only at hc
    split at hc
    · exact sanitizeName_fixed py hpy _ c (List.take_subset _ _ hc)
    · exact sanitizeName_fixed py hpy _ c hc
  have hpfx_len : (tilesetPfx batch_id).length ≤ 12 := by
    cases batch_id with
    | none => decide
    | some b =>
      by_cases hb : b.isEmpty
      · rw [show tilesetPfx (some b) = "wx".data from by
          unfold tilesetPfx
          simp [hb]]
        decide
      · rw [show tilesetPfx (some b) = "wxb_".data ++ b.data.take 8 from by
          unfold tilesetPfx
          simp [hb], List.length_append]
        have h1 := List.length_take_le 8 b.data
        have h2 : ("wxb_".data).length = 4 := rfl
        omega
  have hname2_len :
      (truncatedName py stem tileset_name batch_id ts).length +
      (tilesetPfx batch_id).length ≤ 22 := by
    unfold truncatedName
    dsimp only
    split
    · have h1 := List.length_take_le
        (Int.toNat (32 - ((tilesetPfx batch_id).length : ℤ) -
          (ts.data.length : ℤ) - 2))
        (sanitizeName py (chosenName py stem tileset_name))
      omega
    · rename_i hle
      omega
  have hsan : pySan py (tilesetPfx batch_id ++
      '_' :: (truncatedName py stem tileset_name batch_id ts ++
        '_' :: ts.data)) =
      pySan py (tilesetPfx batch_id) ++
      '_' :: (truncatedName py stem tileset_name batch_id ts ++
        '_' :: ts.data) := by
    rw [pySan_append, pySan_underscore_cons py hpy, pySan_append,
      pySan_underscore_cons py hpy, pySan_fixed py _ hname2,
      pySan_fixed py _ hts_fixed]
  have hlen_all : (pySan py (tilesetPfx batch_id) ++
      '_' :: (truncatedName py stem tileset_name batch_id ts ++
        '_' :: ts.data)).length ≤ 32 := by
    simp only [List.length_append, List.length_cons]
    have h1 := pySan_length_le py (tilesetPfx batch_id)
    omega
  have hne : ts.data ≠ [] := by
    intro h
    rw [h] at hlen
    simp at hlen
  have hdlast : ts.data.dropLast ++ [ts.data.getLast hne] = ts.data :=
    List.dropLast_concat_getLast hne
  have hdnot : ¬ ts.data.getLast hne = '_' := by
    have hd := hdig _ (List.getLast_mem hne)
    rw [isDigit_iff] at hd
    intro h
    rw [h] at hd
    exact absurd hd (by decide)
  have hre : ∀ (X Y Z : List Char) (d : Char),
      X ++ '_' :: (Y ++ '_' :: (Z ++ [d])) =
      (X ++ '_' :: (Y ++ '_' :: Z)) ++ [d] := by
    intro X Y Z d
    simp
  have hstruct :
      (generate_tileset_id py stem tileset_name batch_id ts).data =
      pySan py (tilesetPfx batch_id) ++
        '_' :: (truncatedName py stem tileset_name batch_id ts ++
          '_' :: ts.data) := by
    show rstripUnd ((pySan py ((tilesetPfx batch_id ++
      '_' :: truncatedName py stem tileset_name batch_id ts) ++
        '_' :: ts.data)).take 32) = _
    rw [List.append_assoc, List.cons_append]
    rw [hsan, List.take_of_length_le hlen_all, ← hdlast, hre]
    exact rstripUnd_of_last_ne _ _ hdnot
  have hchars :
      ∀ c ∈ (generate_tileset_id py stem tileset_name batch_id ts).data,
      py.lower c = c ∧ pyAllowedChar py c = true := by
    rw [hstruct]
    intro c hc
    rcases List.mem_append.mp hc with hc | hc
    · exact mem_pySan py hpy _ c hc
    · rcases List.mem_cons.mp hc with hc | hc
      · rw [hc]
        exact underscore_pyFixed py hpy
      · rcases List.mem_append.mp hc with hc | hc
        · exact hname2 c hc
        · rcases List.mem_cons.mp hc with hc | hc
          · rw [hc]
            exact underscore_pyFixed py hpy
          · exact hts_fixed c hc
  refine ⟨hstruct, ?_, hchars, ?_, ?_, ?_, ?_⟩
  · rw [hstruct]
    exact hlen_all
  · intro c hc h128
    exact pyFixed_ascii_lowerAllowed py hpy c h128 (hchars c hc).1
      (hchars c hc).2
  · rw [hstruct, ← hdlast, hre, List.getLast?_concat]
    intro h
    exact hdnot (Option.some.inj h)
  · intro hbn
    subst hbn
    have hwx : pySan py (tilesetPfx none) = "wx".data := by
      apply pySan_fixed
      intro c hc
      rw [show tilesetPfx none = ['w', 'x'] from rfl] at hc
      simp only [List.mem_cons, List.not_mem_nil, or_false] at hc
      rcases hc with hc | hc
      · rw [hc]
        exact ascii_fix py hpy 'w' (by decide) (by decide) (by decide)
      · rw [hc]
        exact ascii_fix py hpy 'x' (by decide) (by decide) (by decide)
    rw [hstruct, hwx]
    exact listStartsWith_append_self _ _
  · intro bs hbs hbe
    subst hbs
    have hwxb : pySan py ("wxb_".data) = "wxb_".data := by
      apply pySan_fixed
      intro c hc
      rw [show ("wxb_".data) = ['w', 'x', 'b', '_'] from rfl] at hc
      simp only [List.mem_cons, List.not_mem_nil, or_false] at hc
      rcases hc with hc | hc | hc | hc
      · rw [hc]
        exact ascii_fix py hpy 'w' (by decide) (by decide) (by decide)
      · rw [hc]
        exact ascii_fix py hpy 'x' (by decide) (by decide) (by decide)
      · rw [hc]
        exact ascii_fix py hpy 'b' (by decide) (by decide) (by decide)
      · rw [hc]
        exact underscore_pyFixed py hpy
    rw [hstruct]
    rw [show tilesetPfx (some bs) = "wxb_".data ++ bs.data.take 8 from by
      unfold tilesetPfx
      simp [hbe]]
    rw [pySan_append, hwxb, List.append_assoc]
    exact listStartsWith_append_self _ _

/-- C6 witness: the hypotheses hold at the ASCII instance (sound by
`asciiPy_sound`) with a concrete all-ASCII batch upload, and the theorem
instantiates there; the id also evaluates to
`wxb_abc-1234_wind_data_07151230`. -/
theorem generate_tileset_id_spec_witness :
    asciiPy.Sound ∧
    (generate_tileset_id asciiPy "20250101120000_wind_data" none
        (some "abc-1234") "07151230").data.length ≤ 32 ∧
    ¬ (generate_tileset_id asciiPy "20250101120000_wind_data" none
        (some "abc-1234") "07151230").data.getLast? = some '_' ∧
    listStartsWith ("wxb_".data ++ pySan asciiPy ("abc-1234".data.take 8))
      (generate_tileset_id asciiPy "20250101120000_wind_data" none
        (some "abc-1234") "07151230").data = true ∧
    generate_tileset_id asciiPy "20250101120000_wind_data" none
      (some "abc-1234") "07151230" = "wxb_abc-1234_wind_data_07151230" := by
  have h := generate_tileset_id_spec asciiPy "20250101120000_wind_data" none
    (some "abc-1234") "07151230" asciiPy_sound rfl (by decide)
  exact ⟨asciiPy_sound, h.2.1, h.2.2.2.2.1,
    h.2.2.2.2.2.2 "abc-1234" rfl rfl, by decide⟩

end MBV
